import Mathlib

/-!
Verification of the Markdown tree-to-AST converter (`parseNode` and its
helpers).  The definitions below are a shallow embedding of the converter
source: a Lezer-style concrete syntax node is modelled as a tree of kind
names with half-open byte ranges, and the converter is translated function
by function.  JavaScript string primitives (`substring`, `split(/\s+/)`,
`trim`, `includes`) are modelled by explicit executable counterparts.
-/

namespace Zettlr

/-- A Lezer-style concrete syntax tree node: a kind name, a half-open range
`[nFrom, nTo)` of offsets into the source, and the ordered list of direct
children.  This models the external `SyntaxNode` interface the converter
consumes (`name`, `from`, `to`, `firstChild`/`nextSibling` navigation and
`getChild`/`getChildren` lookup over direct children). -/
inductive SyntaxNode : Type where
  | mk (name : String) (nFrom nTo : Nat) (children : List SyntaxNode)

def SyntaxNode.name : SyntaxNode → String
  | .mk n _ _ _ => n

def SyntaxNode.nFrom : SyntaxNode → Nat
  | .mk _ f _ _ => f

def SyntaxNode.nTo : SyntaxNode → Nat
  | .mk _ _ t _ => t

def SyntaxNode.children : SyntaxNode → List SyntaxNode
  | .mk _ _ _ cs => cs

@[simp] theorem SyntaxNode.name_mk (n : String) (f t : Nat) (cs : List SyntaxNode) :
    (SyntaxNode.mk n f t cs).name = n := rfl

@[simp] theorem SyntaxNode.nFrom_mk (n : String) (f t : Nat) (cs : List SyntaxNode) :
    (SyntaxNode.mk n f t cs).nFrom = f := rfl

@[simp] theorem SyntaxNode.nTo_mk (n : String) (f t : Nat) (cs : List SyntaxNode) :
    (SyntaxNode.mk n f t cs).nTo = t := rfl

@[simp] theorem SyntaxNode.children_mk (n : String) (f t : Nat) (cs : List SyntaxNode) :
    (SyntaxNode.mk n f t cs).children = cs := rfl

/-- Lezer `node.firstChild`: the first direct child. -/
def SyntaxNode.firstChild (n : SyntaxNode) : Option SyntaxNode :=
  n.children.head?

/-- Lezer `node.getChild(kind)`: the first direct child with the given kind name. -/
def SyntaxNode.getChild (n : SyntaxNode) (kind : String) : Option SyntaxNode :=
  n.children.find? (fun c => c.name == kind)

/-- Lezer `node.getChildren(kind)`: all direct children with the given kind name,
in document order. -/
def SyntaxNode.getChildren (n : SyntaxNode) (kind : String) : List SyntaxNode :=
  n.children.filter (fun c => c.name == kind)

mutual

/-- Size measure used for termination of the recursive converter. -/
def SyntaxNode.weight : SyntaxNode → Nat
  | .mk _ _ _ cs => 1 + weightList cs

/-- Total weight of a list of syntax nodes. -/
def weightList : List SyntaxNode → Nat
  | [] => 0
  | c :: cs => c.weight + weightList cs

end

@[simp] theorem weight_mk (n : String) (f t : Nat) (cs : List SyntaxNode) :
    (SyntaxNode.mk n f t cs).weight = 1 + weightList cs := by
  rw [SyntaxNode.weight]

@[simp] theorem weightList_nil : weightList [] = 0 := by
  rw [weightList]

@[simp] theorem weightList_cons (c : SyntaxNode) (cs : List SyntaxNode) :
    weightList (c :: cs) = c.weight + weightList cs := by
  rw [weightList]

theorem weight_pos (n : SyntaxNode) : 1 ≤ n.weight := by
  cases n with
  | mk name f t cs => simp

theorem weight_eq_children (n : SyntaxNode) :
    n.weight = 1 + weightList n.children := by
  cases n with
  | mk name f t cs => simp [SyntaxNode.children]

theorem weight_le_of_mem {c : SyntaxNode} {cs : List SyntaxNode} (h : c ∈ cs) :
    c.weight ≤ weightList cs := by
  induction cs with
  | nil => cases h
  | cons d ds ih =>
    rcases List.mem_cons.mp h with h1 | h2
    · subst h1; simp
    · have := ih h2
      simp
      omega

theorem weightList_append (a b : List SyntaxNode) :
    weightList (a ++ b) = weightList a + weightList b := by
  induction a with
  | nil => simp
  | cons c cs ih => simp [ih]; omega

theorem weightList_filter_le (p : SyntaxNode → Bool) (cs : List SyntaxNode) :
    weightList (cs.filter p) ≤ weightList cs := by
  induction cs with
  | nil => simp
  | cons c ds ih =>
    by_cases hp : p c
    · simp [List.filter_cons, hp]
      omega
    · simp [List.filter_cons, hp]
      have := weight_pos c
      omega

theorem weightList_filter_two_le (p q : SyntaxNode → Bool) (cs : List SyntaxNode)
    (hpq : ∀ c, p c = true → q c = true → False) :
    weightList (cs.filter p) + weightList (cs.filter q) ≤ weightList cs := by
  induction cs with
  | nil => simp
  | cons c ds ih =>
    by_cases hp : p c
    · have hq : q c = false := by
        by_contra hq'
        exact hpq c hp (by simpa using hq')
      simp [List.filter_cons, hp, hq]
      omega
    · by_cases hq : q c
      · simp [List.filter_cons, hp, hq]
        omega
      · simp [List.filter_cons, hp, hq]
        have := weight_pos c
        omega

theorem weight_lt_of_getChild {n c : SyntaxNode} {kind : String}
    (h : n.getChild kind = some c) : c.weight < n.weight := by
  have hmem : c ∈ n.children := List.mem_of_find?_eq_some h
  have h1 : c.weight ≤ weightList n.children := weight_le_of_mem hmem
  have h2 := weight_eq_children n
  omega

theorem weightList_getChildren_le (n : SyntaxNode) (kind : String) :
    weightList (n.getChildren kind) ≤ weightList n.children :=
  weightList_filter_le _ _

theorem weightList_table_le (n : SyntaxNode) :
    weightList (n.getChildren "TableHeader" ++ n.getChildren "TableRow") ≤
      weightList n.children := by
  rw [weightList_append]
  apply weightList_filter_two_le
  intro c h1 h2
  have e1 : c.name = "TableHeader" := by simpa using h1
  have e2 : c.name = "TableRow" := by simpa using h2
  rw [e1] at e2
  exact absurd e2 (by decide)

theorem dec_tail (c : SyntaxNode) (rest : List SyntaxNode) :
    3 * weightList rest + 2 < 3 * weightList (c :: rest) + 2 := by
  have := weight_pos c
  simp only [weightList_cons]
  omega

theorem dec_head_node (c : SyntaxNode) (rest : List SyntaxNode) :
    3 * c.weight + 1 < 3 * weightList (c :: rest) + 2 := by
  simp only [weightList_cons]
  omega

theorem dec_head_children (c : SyntaxNode) (rest : List SyntaxNode) :
    3 * c.weight < 3 * weightList (c :: rest) + 2 := by
  simp only [weightList_cons]
  omega

theorem dec_row_cells (row : SyntaxNode) (rest : List SyntaxNode) :
    3 * weightList (row.getChildren "TableCell") + 2 <
      3 * weightList (row :: rest) + 2 := by
  have h1 := weightList_getChildren_le row "TableCell"
  have h2 := weight_eq_children row
  simp only [weightList_cons]
  omega

/-- JavaScript `String.prototype.substring(a, b)`: both indices are clamped
to `[0, length]`, and swapped when `a > b`.  Offsets count characters. -/
def jsSubstring (s : String) (a b : Nat) : String :=
  let n := s.length
  let a' := min a n
  let b' := min b n
  ((s.data.drop (min a' b')).take (max a' b' - min a' b')).asString

/-- Worker for `jsSplitWs`: accumulates the current token; `inWs` records
whether the previous character belonged to a whitespace run. -/
def jsSplitWsGo : List Char → String → Bool → List String
  | [], cur, _ => [cur]
  | c :: rest, cur, inWs =>
    if c.isWhitespace then
      if inWs then jsSplitWsGo rest "" true
      else cur :: jsSplitWsGo rest "" true
    else jsSplitWsGo rest (cur.push c) false

/-- JavaScript `s.split(/\s+/)`: splits on maximal whitespace runs; a leading
or trailing run contributes an empty token, and `""` splits to `[""]`. -/
def jsSplitWs (s : String) : List String :=
  jsSplitWsGo s.data "" false

/-- JavaScript `s.startsWith(c)` for a single-character prefix. -/
def jsStartsWithChar (s : String) (c : Char) : Bool :=
  match s.data with
  | [] => false
  | d :: _ => d == c

/-- JavaScript `s.endsWith(c)` for a single-character suffix. -/
def jsEndsWithChar (s : String) (c : Char) : Bool :=
  match s.data.reverse with
  | [] => false
  | d :: _ => d == c

/-- JavaScript `s.includes(c)` for a single character. -/
def jsIncludesChar (s : String) (c : Char) : Bool :=
  s.data.any (fun d => d == c)

/-- Worker for `jsSplitChar`. -/
def jsSplitCharGo (sep : Char) : List Char → String → List String
  | [], cur => [cur]
  | c :: rest, cur =>
    if c == sep then cur :: jsSplitCharGo sep rest ""
    else jsSplitCharGo sep rest (cur.push c)

/-- JavaScript `s.split(c)` on a single-character separator: every occurrence
splits, and empty fields are kept. -/
def jsSplitChar (s : String) (sep : Char) : List String :=
  jsSplitCharGo sep s.data ""

/-- JavaScript `s.trim()`: strips whitespace from both ends. -/
def jsTrim (s : String) : String :=
  ((s.data.dropWhile Char.isWhitespace).reverse.dropWhile Char.isWhitespace).reverse.asString

/-- Attribute maps (`Record<string, string>`), as insertion-ordered key/value
lists with JavaScript object update semantics. -/
abbrev Record := List (String × String)

/-- JavaScript `key in record`. -/
def recHas (r : Record) (k : String) : Bool :=
  r.any (fun p => p.1 == k)

/-- Lookup of a key in a record. -/
def recGet (r : Record) (k : String) : Option String :=
  (r.find? (fun p => p.1 == k)).map (fun p => p.2)

/-- JavaScript `record[key] = value`: overwrites in place when the key exists, appends
otherwise. -/
def recSet (r : Record) (k v : String) : Record :=
  if recHas r k then r.map (fun p => if p.1 == k then (p.1, v) else p)
  else r ++ [(k, v)]

/-- Modelled from the spec: the Citation Extractor is an external collaborator
(`extract-citations`, not part of this core) mapping a raw citation code
string to a sequence of structured citation positions.  Its output is opaque
to the converter, which stores the first element and never inspects it; we
model the structured result as the raw code it was produced from. -/
structure CitePosition where
  raw : String
deriving Repr, DecidableEq

/-- Modelled from the spec: `extract(code) -> sequence<CitationPosition>`.
The converter only takes the first element of the result, treating an empty
result as "no structured citation available". -/
def extractCitations (code : String) : List CitePosition :=
  [⟨code⟩]

/-- The `TextNode` variant: a leaf holding a raw string value. -/
structure TextNode where
  name : String
  nFrom : Nat
  nTo : Nat
  value : String
deriving Repr, DecidableEq

/-- The list-item `marker` property: optional single-character bullet symbol
and the byte range of the marker glyph. -/
structure Marker where
  symbol : Option String
  nFrom : Nat
  nTo : Nat
deriving Repr, DecidableEq

/-- The closed union of AST node variants produced by the converter.  Every
variant carries its `name`, the half-open range `[nFrom, nTo)`, and (for the
variants built through the children-aggregation helper) an optional
attributes map. -/
inductive ASTNode : Type where
  | text (t : TextNode)
  | footnote (name : String) (nFrom nTo : Nat) (inline : Bool) (label : String)
  | footnoteRef (name : String) (nFrom nTo : Nat) (attributes : Option Record)
      (label : String) (children : List ASTNode)
  | linkOrImage (typ : String) (name : String) (nFrom nTo : Nat)
      (url : TextNode) (alt : TextNode)
  | heading (name : String) (nFrom nTo : Nat) (value : TextNode) (level : Nat)
  | citation (name : String) (nFrom nTo : Nat) (value : TextNode)
      (parsedCitation : Option CitePosition)
  | highlight (name : String) (nFrom nTo : Nat) (attributes : Option Record)
      (children : List ASTNode)
  | list (name : String) (nFrom nTo : Nat) (ordered : Bool)
      (items : List ASTNode)
  | listItem (name : String) (nFrom nTo : Nat) (attributes : Option Record)
      (checked : Option Bool) (marker : Marker) (children : List ASTNode)
  | fencedCode (typ : String) (name : String) (nFrom nTo : Nat)
      (info : String) (source : String)
  | inlineCode (name : String) (nFrom nTo : Nat) (source : String)
  | emphasis (name : String) (nFrom nTo : Nat) (attributes : Option Record)
      (which : String) (children : List ASTNode)
  | table (name : String) (nFrom nTo : Nat) (rows : List ASTNode)
  | tableRow (name : String) (nFrom nTo : Nat) (isHeaderOrFooter : Bool)
      (cells : List ASTNode)
  | tableCell (name : String) (nFrom nTo : Nat) (attributes : Option Record)
      (children : List ASTNode)
  | zknLink (name : String) (nFrom nTo : Nat) (value : TextNode)
  | zknTag (name : String) (nFrom nTo : Nat) (value : TextNode)
  | generic (name : String) (nFrom nTo : Nat) (attributes : Option Record)
      (children : List ASTNode)

/-- Start offset of an AST node. -/
def ASTNode.nFrom : ASTNode → Nat
  | .text t => t.nFrom
  | .footnote _ f _ _ _ => f
  | .footnoteRef _ f _ _ _ _ => f
  | .linkOrImage _ _ f _ _ _ => f
  | .heading _ f _ _ _ => f
  | .citation _ f _ _ _ => f
  | .highlight _ f _ _ _ => f
  | .list _ f _ _ _ => f
  | .listItem _ f _ _ _ _ _ => f
  | .fencedCode _ _ f _ _ _ => f
  | .inlineCode _ f _ _ => f
  | .emphasis _ f _ _ _ _ => f
  | .table _ f _ _ => f
  | .tableRow _ f _ _ _ => f
  | .tableCell _ f _ _ _ => f
  | .zknLink _ f _ _ => f
  | .zknTag _ f _ _ => f
  | .generic _ f _ _ _ => f

/-- End offset of an AST node. -/
def ASTNode.nTo : ASTNode → Nat
  | .text t => t.nTo
  | .footnote _ _ t _ _ => t
  | .footnoteRef _ _ t _ _ _ => t
  | .linkOrImage _ _ _ t _ _ => t
  | .heading _ _ t _ _ => t
  | .citation _ _ t _ _ => t
  | .highlight _ _ t _ _ => t
  | .list _ _ t _ _ => t
  | .listItem _ _ t _ _ _ _ => t
  | .fencedCode _ _ _ t _ _ => t
  | .inlineCode _ _ t _ => t
  | .emphasis _ _ t _ _ _ => t
  | .table _ _ t _ => t
  | .tableRow _ _ t _ _ => t
  | .tableCell _ _ t _ _ => t
  | .zknLink _ _ t _ => t
  | .zknTag _ _ t _ => t
  | .generic _ _ t _ _ => t

/-- The `[nFrom, nTo)` range of an AST node as a pair. -/
def ASTNode.range (a : ASTNode) : Nat × Nat :=
  (a.nFrom, a.nTo)

/-- The `level` field of a produced `Heading` node. -/
def ASTNode.levelOf : ASTNode → Option Nat
  | .heading _ _ _ _ lvl => some lvl
  | _ => none

/-- The `info` field of a produced `FencedCode`/`YAMLFrontmatter` node. -/
def ASTNode.infoOf : ASTNode → Option String
  | .fencedCode _ _ _ _ info _ => some info
  | _ => none

/-- The `checked` field of a produced `ListItem` node (absent for non-task
items). -/
def ASTNode.checkedOf : ASTNode → Option Bool
  | .listItem _ _ _ _ checked _ _ => checked
  | _ => none

/-- The `alt` field of a produced `Link`/`Image` node. -/
def ASTNode.altOf : ASTNode → Option TextNode
  | .linkOrImage _ _ _ _ _ alt => some alt
  | _ => none

/-- The `genericTextNode` helper of the source: builds a `Text` leaf. -/
def genericTextNode (nFrom nTo : Nat) (value : String) : TextNode :=
  { name := "text", nFrom := nFrom, nTo := nTo, value := value }

/-- The `EMPTY_NODES` list of the source: node kinds that have no content of
their own (pure formatting marks and container kinds), for which no synthetic
gap-filling text is generated. -/
def EMPTY_NODES : List String :=
  [ "HeaderMark", "CodeMark", "EmphasisMark", "QuoteMark", "ListMark",
    "YAMLFrontmatterStart", "YAMLFrontmatterEnd", "Document", "List",
    "ListItem", "PandocAttribute" ]

/-- The `parseAttributeNode` function of the source: merges a `PandocAttribute` node's
bracketed contents into an attribute record.  `.cls` entries accumulate into
`class` separated by spaces, only the first `#id` sets `id`, and `key=value`
entries overwrite earlier values for the same key. -/
def parseAttributeNode (oldAttributes : Record) (node : SyntaxNode)
    (markdown : String) : Record :=
  if node.name != "PandocAttribute" then oldAttributes
  else
    let rawString := jsSubstring markdown (node.nFrom + 1) (node.nTo - 1)
    let rawAttributes := jsSplitWs rawString
    rawAttributes.foldl (fun acc attr =>
      if jsStartsWithChar attr '.' then
        if recHas acc "class" then
          recSet acc "class" (((recGet acc "class").getD "") ++ " " ++ (jsSubstring attr 1 attr.length))
        else
          recSet acc "class" (jsSubstring attr 1 attr.length)
      else if jsStartsWithChar attr '#' && !(recHas acc "id") then
        recSet acc "id" (jsSubstring attr 1 attr.length)
      else if jsIncludesChar attr '=' then
        match jsSplitChar attr '=' with
        | [k, v] => recSet acc k v
        | _ => acc
      else acc) oldAttributes

mutual

/-- The `parseNode` function of the source: converts a single syntax node to an AST node.
Dispatches on the node kind string; unknown kinds fall through to the generic
children-aggregation path.  Failures of the JavaScript original (the explicit
`ZknLink` throw and the `InlineCode` destructuring of a missing `CodeMark`
child) are modelled as `Except.error`. -/
def parseNode (node : SyntaxNode) (markdown : String) : Except String ASTNode :=
  if node.name == "Image" || node.name == "Link" then
    match node.getChild "URL" with
    | none =>
      .ok (.generic node.name node.nFrom node.nTo none
        [.text (genericTextNode node.nFrom node.nTo
          (jsSubstring markdown node.nFrom node.nTo))])
    | some url =>
      let urlText := genericTextNode url.nFrom url.nTo
        (jsSubstring markdown url.nFrom url.nTo)
      let altText :=
        match node.getChild "LinkLabel", node.getChildren "LinkMark" with
        | none, m0 :: m1 :: _ =>
          genericTextNode m0.nTo m1.nFrom (jsSubstring markdown m0.nTo m1.nFrom)
        | _, _ => urlText
      .ok (.linkOrImage node.name node.name node.nFrom node.nTo urlText altText)
  else if node.name == "URL" then
    .ok (.linkOrImage "Link" node.name node.nFrom node.nTo
      (genericTextNode node.nFrom node.nTo (jsSubstring markdown node.nFrom node.nTo))
      (genericTextNode node.nFrom node.nTo (jsSubstring markdown node.nFrom node.nTo)))
  else if node.name == "ATXHeading1" || node.name == "ATXHeading2" ||
      node.name == "ATXHeading3" || node.name == "ATXHeading4" ||
      node.name == "ATXHeading5" || node.name == "ATXHeading6" then
    let mark := node.getChild "HeaderMark"
    let level := match mark with
      | some m => m.nTo - m.nFrom
      | none => 0
    let vfrom := match mark with
      | some m => m.nTo
      | none => node.nFrom
    .ok (.heading node.name node.nFrom node.nTo
      (genericTextNode vfrom node.nTo (jsTrim (jsSubstring markdown vfrom node.nTo)))
      level)
  else if node.name == "SetextHeading1" || node.name == "SetextHeading2" then
    let mark := node.getChild "HeaderMark"
    let level := match mark with
      | some m => if jsIncludesChar (jsSubstring markdown m.nFrom m.nTo) '-' then 2 else 1
      | none => 1
    let vfrom := match mark with
      | some m => m.nTo
      | none => node.nFrom
    let vto := match mark with
      | some m => m.nFrom
      | none => node.nTo
    .ok (.heading node.name node.nFrom node.nTo
      (genericTextNode vfrom node.nTo (jsTrim (jsSubstring markdown node.nFrom vto)))
      level)
  else if node.name == "Citation" then
    .ok (.citation "Citation" node.nFrom node.nTo
      (genericTextNode node.nFrom node.nTo (jsSubstring markdown node.nFrom node.nTo))
      (extractCitations (jsSubstring markdown node.nFrom node.nTo)).head?)
  else if node.name == "Footnote" then
    let contents := jsSubstring markdown (node.nFrom + 2) (node.nTo - 1)
    .ok (.footnote "Footnote" node.nFrom node.nTo (jsEndsWithChar contents '^')
      (if jsEndsWithChar contents '^' then jsSubstring contents 0 (contents.length - 1)
       else contents))
  else if node.name == "FootnoteRef" then
    let lbl := match node.getChild "FootnoteRefLabel" with
      | some l => jsSubstring markdown (l.nFrom + 2) (l.nTo - 2)
      | none => ""
    match h : node.getChild "FootnoteRefBody" with
    | some body =>
      match parseChildren body markdown with
      | .error e => .error e
      | .ok (kids, attrs) =>
        .ok (.footnoteRef "FootnoteRef" node.nFrom node.nTo attrs lbl kids)
    | none => .ok (.footnoteRef "FootnoteRef" node.nFrom node.nTo none lbl [])
  else if node.name == "Highlight" then
    match parseChildren ((node.getChild "HighlightContent").getD node) markdown with
    | .error e => .error e
    | .ok (kids, attrs) =>
      .ok (.highlight "Highlight" node.nFrom node.nTo attrs kids)
  else if node.name == "OrderedList" || node.name == "BulletList" then
    match parseListItems (node.name == "OrderedList") (node.getChildren "ListItem") markdown with
    | .error e => .error e
    | .ok items =>
      .ok (.list node.name node.nFrom node.nTo (node.name == "OrderedList") items)
  else if node.name == "FencedCode" || node.name == "CodeBlock" then
    let info0 := node.getChild "CodeInfo"
    let info := match node.getChild "CodeMark" with
      | some m => if jsSubstring markdown m.nFrom m.nTo == "$$" then some m else info0
      | none => info0
    let typ := if (node.getChild "YAMLFrontmatterStart").isSome then "YAMLFrontmatter"
      else "FencedCode"
    .ok (.fencedCode typ typ node.nFrom node.nTo
      (match info with
       | some i => jsSubstring markdown i.nFrom i.nTo
       | none => "")
      (match node.getChild "CodeText" with
       | some s => jsSubstring markdown s.nFrom s.nTo
       | none => ""))
  else if node.name == "InlineCode" then
    match node.getChildren "CodeMark" with
    | s :: e :: _ =>
      .ok (.inlineCode "InlineCode" node.nFrom node.nTo
        (jsSubstring markdown s.nTo e.nFrom))
    | _ => .error "TypeError: cannot read from undefined CodeMark child"
  else if node.name == "Emphasis" || node.name == "StrongEmphasis" then
    match parseChildren node markdown with
    | .error e => .error e
    | .ok (kids, attrs) =>
      .ok (.emphasis "Emphasis" node.nFrom node.nTo attrs
        (if node.name == "Emphasis" then "italic" else "bold") kids)
  else if node.name == "Table" then
    match parseTableRows (node.getChildren "TableHeader" ++ node.getChildren "TableRow") markdown with
    | .error e => .error e
    | .ok rows => .ok (.table "Table" node.nFrom node.nTo rows)
  else if node.name == "ZknLink" then
    match node.getChild "ZknLinkContent" with
    | none => .error "Could not parse node ZknLink: No ZknLinkContent node found within children!"
    | some content =>
      .ok (.zknLink "ZknLink" node.nFrom node.nTo
        (genericTextNode content.nFrom content.nTo
          (jsSubstring markdown content.nFrom content.nTo)))
  else if node.name == "ZknTag" then
    .ok (.zknTag "ZknTag" node.nFrom node.nTo
      (genericTextNode node.nFrom node.nTo (jsSubstring markdown node.nFrom node.nTo)))
  else
    match parseChildren node markdown with
    | .error e => .error e
    | .ok (kids, attrs) =>
      .ok (.generic node.name node.nFrom node.nTo attrs kids)
termination_by 3 * node.weight + 1
decreasing_by
  · have := weight_lt_of_getChild h
    omega
  · cases hc : node.getChild "HighlightContent" with
    | none =>
      simp only [hc, Option.getD]
      omega
    | some c =>
      have := weight_lt_of_getChild hc
      simp only [hc, Option.getD]
      omega
  · have h1 := weightList_getChildren_le node "ListItem"
    have h2 := weight_eq_children node
    omega
  · omega
  · have h1 := weightList_table_le node
    have h2 := weight_eq_children node
    omega
  · omega

/-- The `parseChildren` helper of the source: the generic children-aggregation helper.
Returns the children sequence and the attribute map the original accumulates
on the AST node passed to it (all call sites pass a node with empty children
and no attributes). -/
def parseChildren (node : SyntaxNode) (markdown : String) :
    Except String (List ASTNode × Option Record) :=
  if node.children.isEmpty then
    if EMPTY_NODES.contains node.name then .ok ([], none)
    else
      .ok ([.text (genericTextNode node.nFrom node.nTo
        (jsSubstring markdown node.nFrom node.nTo))], none)
  else
    parseChildrenGo node.name node.children node.nFrom node.nTo markdown none
termination_by 3 * node.weight
decreasing_by
  · have h2 := weight_eq_children node
    omega

/-- The sub-node loop of `parseChildren`: walks the direct sub-nodes in
document order, synthesizing gap `Text` leaves, folding `PandocAttribute`
sub-nodes into the attribute map, and recursing into every other sub-node. -/
def parseChildrenGo (parentName : String) (cs : List SyntaxNode)
    (currentIndex parentTo : Nat) (markdown : String) (attrs : Option Record) :
    Except String (List ASTNode × Option Record) :=
  match cs with
  | [] =>
    if currentIndex < parentTo && !(EMPTY_NODES.contains parentName) then
      .ok ([.text (genericTextNode currentIndex parentTo
        (jsSubstring markdown currentIndex parentTo))], attrs)
    else .ok ([], attrs)
  | c :: rest =>
    let gap : List ASTNode :=
      if currentIndex < c.nFrom && !(EMPTY_NODES.contains parentName) then
        [.text (genericTextNode currentIndex c.nFrom
          (jsSubstring markdown currentIndex c.nFrom))]
      else []
    if c.name == "PandocAttribute" then
      match parseChildrenGo parentName rest c.nTo parentTo markdown
          (some (parseAttributeNode (attrs.getD []) c markdown)) with
      | .error e => .error e
      | .ok (kids, a) => .ok (gap ++ kids, a)
    else
      match parseNode c markdown with
      | .error e => .error e
      | .ok childAst =>
        match parseChildrenGo parentName rest c.nTo parentTo markdown attrs with
        | .error e => .error e
        | .ok (kids, a) => .ok (gap ++ childAst :: kids, a)
termination_by 3 * weightList cs + 2
decreasing_by
  · exact dec_tail _ _
  · exact dec_head_node _ _
  · exact dec_tail _ _

/-- The per-item loop of the `OrderedList`/`BulletList` case: captures the
list-mark range and bullet symbol, detects task markers, and aggregates the
item's children. -/
def parseListItems (ordered : Bool) (items : List SyntaxNode) (markdown : String) :
    Except String (List ASTNode) :=
  match items with
  | [] => .ok []
  | item :: rest =>
    let marker : Marker := match item.getChild "ListMark" with
      | some lm =>
        { symbol :=
            if !ordered && lm.nTo - lm.nFrom == 1 then
              some (jsSubstring markdown lm.nFrom lm.nTo)
            else none
          nFrom := lm.nFrom
          nTo := lm.nTo }
      | none => { symbol := none, nFrom := item.nFrom, nTo := item.nFrom }
    let checked : Option Bool :=
      match (item.getChild "Task").bind (fun t => t.getChild "TaskMarker") with
      | some tm => some (jsSubstring markdown tm.nFrom tm.nTo == "[x]")
      | none => none
    match parseChildren item markdown with
    | .error e => .error e
    | .ok (kids, attrs) =>
      match parseListItems ordered rest markdown with
      | .error e => .error e
      | .ok more =>
        .ok (.listItem "ListItem" item.nFrom item.nTo attrs checked marker kids :: more)
termination_by 3 * weightList items + 2
decreasing_by
  · exact dec_head_children _ _
  · exact dec_tail _ _

/-- The per-row loop of the `Table` case, over the concatenation of header
rows and body rows. -/
def parseTableRows (rows : List SyntaxNode) (markdown : String) :
    Except String (List ASTNode) :=
  match rows with
  | [] => .ok []
  | row :: rest =>
    match parseTableCells (row.getChildren "TableCell") markdown with
    | .error e => .error e
    | .ok cells =>
      match parseTableRows rest markdown with
      | .error e => .error e
      | .ok more =>
        .ok (.tableRow row.name row.nFrom row.nTo (row.name == "TableHeader") cells :: more)
termination_by 3 * weightList rows + 2
decreasing_by
  · exact dec_row_cells _ _
  · exact dec_tail _ _

/-- The per-cell loop of the `Table` case. -/
def parseTableCells (cells : List SyntaxNode) (markdown : String) :
    Except String (List ASTNode) :=
  match cells with
  | [] => .ok []
  | cell :: rest =>
    match parseChildren cell markdown with
    | .error e => .error e
    | .ok (kids, attrs) =>
      match parseTableCells rest markdown with
      | .error e => .error e
      | .ok more =>
        .ok (.tableCell "TableCell" cell.nFrom cell.nTo attrs kids :: more)
termination_by 3 * weightList cells + 2
decreasing_by
  · exact dec_head_children _ _
  · exact dec_tail _ _

end

mutual

/-- Characterizes the syntax trees on which the conversion succeeds: a node
is good exactly when no node reached by the conversion is a `ZknLink` without
a `ZknLinkContent` child or an `InlineCode` without two `CodeMark` children.
The recursion mirrors `parseNode`'s traversal (kinds with bespoke extraction
do not recurse into children; `PandocAttribute` sub-nodes are skipped). -/
def goodTree (node : SyntaxNode) : Bool :=
  if node.name == "Image" || node.name == "Link" then true
  else if node.name == "URL" then true
  else if node.name == "ATXHeading1" || node.name == "ATXHeading2" ||
      node.name == "ATXHeading3" || node.name == "ATXHeading4" ||
      node.name == "ATXHeading5" || node.name == "ATXHeading6" then true
  else if node.name == "SetextHeading1" || node.name == "SetextHeading2" then true
  else if node.name == "Citation" then true
  else if node.name == "Footnote" then true
  else if node.name == "FootnoteRef" then
    match h : node.getChild "FootnoteRefBody" with
    | some body => goodList body.children
    | none => true
  else if node.name == "Highlight" then
    goodList ((node.getChild "HighlightContent").getD node).children
  else if node.name == "OrderedList" || node.name == "BulletList" then
    goodEach (node.getChildren "ListItem")
  else if node.name == "FencedCode" || node.name == "CodeBlock" then true
  else if node.name == "InlineCode" then
    match node.getChildren "CodeMark" with
    | _ :: _ :: _ => true
    | _ => false
  else if node.name == "Emphasis" || node.name == "StrongEmphasis" then
    goodList node.children
  else if node.name == "Table" then
    goodRows (node.getChildren "TableHeader" ++ node.getChildren "TableRow")
  else if node.name == "ZknLink" then (node.getChild "ZknLinkContent").isSome
  else if node.name == "ZknTag" then true
  else goodList node.children
termination_by 3 * node.weight + 1
decreasing_by
  · have h1 := weight_lt_of_getChild h
    have h2 := weight_eq_children body
    omega
  · cases hc : node.getChild "HighlightContent" with
    | none =>
      have h1 := weight_eq_children node
      simp only [hc, Option.getD]
      omega
    | some c =>
      have h1 := weight_lt_of_getChild hc
      have h2 := weight_eq_children c
      simp only [hc, Option.getD]
      omega
  · have h1 := weightList_getChildren_le node "ListItem"
    have h2 := weight_eq_children node
    omega
  · have h1 := weight_eq_children node
    omega
  · have h1 := weightList_table_le node
    have h2 := weight_eq_children node
    omega
  · have h1 := weight_eq_children node
    omega

/-- Goodness of a list of direct sub-nodes walked by `parseChildrenGo`:
`PandocAttribute` sub-nodes are skipped, every other sub-node is converted. -/
def goodList : List SyntaxNode → Bool
  | [] => true
  | c :: rest => (c.name == "PandocAttribute" || goodTree c) && goodList rest
termination_by cs => 3 * weightList cs + 2
decreasing_by
  · exact dec_head_node _ _
  · exact dec_tail _ _

/-- Goodness of a list of nodes each of which is children-aggregated
(list items, table cells). -/
def goodEach : List SyntaxNode → Bool
  | [] => true
  | c :: rest => goodList c.children && goodEach rest
termination_by cs => 3 * weightList cs + 2
decreasing_by
  · have h1 := weight_eq_children c
    simp only [weightList_cons]
    omega
  · exact dec_tail _ _

/-- Goodness of a list of table rows: each row's cells are aggregated. -/
def goodRows : List SyntaxNode → Bool
  | [] => true
  | row :: rest => goodEach (row.getChildren "TableCell") && goodRows rest
termination_by cs => 3 * weightList cs + 2
decreasing_by
  · exact dec_row_cells _ _
  · exact dec_tail _ _

end

/-- Well-formedness of a sequence of sibling ranges between two bounds: each
child's range is non-degenerate and the children appear in document order
without overlaps, inside the enclosing `[a, b)` range.  This is the input
contract of the Lezer syntax tree the converter consumes. -/
def chainWF : Nat → List SyntaxNode → Nat → Bool
  | a, [], b => decide (a ≤ b)
  | a, c :: rest, b =>
    decide (a ≤ c.nFrom) && decide (c.nFrom ≤ c.nTo) && chainWF c.nTo rest b

/-- The children of `n` are well-formed within `n`'s own range. -/
def childrenWF (n : SyntaxNode) : Bool :=
  chainWF n.nFrom n.children n.nTo

/-- Predicate `tiles a rs b` holds when the ranges `rs`, in order, exactly tile the
half-open interval `[a, b)`: consecutive, gap-free and overlap-free. -/
def tiles : Nat → List (Nat × Nat) → Nat → Bool
  | a, [], b => a == b
  | a, r :: rest, b => r.1 == a && decide (r.1 ≤ r.2) && tiles r.2 rest b

theorem parseNode_linkImage_noUrl (node : SyntaxNode) (md : String)
    (h : node.name = "Image" ∨ node.name = "Link")
    (hu : node.getChild "URL" = none) :
    parseNode node md = .ok (.generic node.name node.nFrom node.nTo none
      [.text (genericTextNode node.nFrom node.nTo
        (jsSubstring md node.nFrom node.nTo))]) := by
  rw [parseNode.eq_def]
  rcases h with h | h <;> simp [h, hu]

theorem parseNode_linkImage_url (node : SyntaxNode) (md : String)
    (url : SyntaxNode) (h : node.name = "Image" ∨ node.name = "Link")
    (hu : node.getChild "URL" = some url) :
    parseNode node md = .ok (.linkOrImage node.name node.name node.nFrom node.nTo
      (genericTextNode url.nFrom url.nTo (jsSubstring md url.nFrom url.nTo))
      (match node.getChild "LinkLabel", node.getChildren "LinkMark" with
       | none, m0 :: m1 :: _ =>
         genericTextNode m0.nTo m1.nFrom (jsSubstring md m0.nTo m1.nFrom)
       | _, _ =>
         genericTextNode url.nFrom url.nTo (jsSubstring md url.nFrom url.nTo))) := by
  rw [parseNode.eq_def]
  rcases h with h | h <;> simp [h, hu]

theorem parseNode_atx (node : SyntaxNode) (md : String)
    (h : node.name = "ATXHeading1" ∨ node.name = "ATXHeading2" ∨
      node.name = "ATXHeading3" ∨ node.name = "ATXHeading4" ∨
      node.name = "ATXHeading5" ∨ node.name = "ATXHeading6") :
    parseNode node md = .ok (.heading node.name node.nFrom node.nTo
      (genericTextNode
        (match node.getChild "HeaderMark" with
         | some m => m.nTo
         | none => node.nFrom)
        node.nTo
        (jsTrim (jsSubstring md
          (match node.getChild "HeaderMark" with
           | some m => m.nTo
           | none => node.nFrom) node.nTo)))
      (match node.getChild "HeaderMark" with
       | some m => m.nTo - m.nFrom
       | none => 0)) := by
  rw [parseNode.eq_def]
  rcases h with h | h | h | h | h | h <;> simp [h]

theorem parseNode_setext (node : SyntaxNode) (md : String)
    (h : node.name = "SetextHeading1" ∨ node.name = "SetextHeading2") :
    parseNode node md = .ok (.heading node.name node.nFrom node.nTo
      (genericTextNode
        (match node.getChild "HeaderMark" with
         | some m => m.nTo
         | none => node.nFrom)
        node.nTo
        (jsTrim (jsSubstring md node.nFrom
          (match node.getChild "HeaderMark" with
           | some m => m.nFrom
           | none => node.nTo))))
      (match node.getChild "HeaderMark" with
       | some m => if jsIncludesChar (jsSubstring md m.nFrom m.nTo) '-' then 2 else 1
       | none => 1)) := by
  rw [parseNode.eq_def]
  rcases h with h | h <;> simp [h]

theorem parseNode_fenced (node : SyntaxNode) (md : String)
    (h : node.name = "FencedCode" ∨ node.name = "CodeBlock") :
    parseNode node md = .ok (.fencedCode
      (if (node.getChild "YAMLFrontmatterStart").isSome then "YAMLFrontmatter"
       else "FencedCode")
      (if (node.getChild "YAMLFrontmatterStart").isSome then "YAMLFrontmatter"
       else "FencedCode")
      node.nFrom node.nTo
      (match
        (match node.getChild "CodeMark" with
         | some m =>
           if jsSubstring md m.nFrom m.nTo == "$$" then some m
           else node.getChild "CodeInfo"
         | none => node.getChild "CodeInfo") with
       | some i => jsSubstring md i.nFrom i.nTo
       | none => "")
      (match node.getChild "CodeText" with
       | some s => jsSubstring md s.nFrom s.nTo
       | none => "")) := by
  rw [parseNode.eq_def]
  rcases h with h | h <;> simp [h]

theorem parseNode_inlineCode (node : SyntaxNode) (md : String)
    (h : node.name = "InlineCode") :
    parseNode node md =
      match node.getChildren "CodeMark" with
      | s :: e :: _ =>
        .ok (.inlineCode "InlineCode" node.nFrom node.nTo
          (jsSubstring md s.nTo e.nFrom))
      | _ => .error "TypeError: cannot read from undefined CodeMark child" := by
  rw [parseNode.eq_def]
  simp [h]

theorem parseNode_list (node : SyntaxNode) (md : String)
    (h : node.name = "OrderedList" ∨ node.name = "BulletList") :
    parseNode node md =
      match parseListItems (node.name == "OrderedList")
          (node.getChildren "ListItem") md with
      | .error e => .error e
      | .ok items =>
        .ok (.list node.name node.nFrom node.nTo (node.name == "OrderedList") items) := by
  rw [parseNode.eq_def]
  rcases h with h | h <;> simp [h]

theorem parseNode_zknLink (node : SyntaxNode) (md : String)
    (h : node.name = "ZknLink") :
    parseNode node md =
      match node.getChild "ZknLinkContent" with
      | none => .error "Could not parse node ZknLink: No ZknLinkContent node found within children!"
      | some content =>
        .ok (.zknLink "ZknLink" node.nFrom node.nTo
          (genericTextNode content.nFrom content.nTo
            (jsSubstring md content.nFrom content.nTo))) := by
  rw [parseNode.eq_def]
  simp [h]

theorem parseNode_zknTag (node : SyntaxNode) (md : String)
    (h : node.name = "ZknTag") :
    parseNode node md = .ok (.zknTag "ZknTag" node.nFrom node.nTo
      (genericTextNode node.nFrom node.nTo (jsSubstring md node.nFrom node.nTo))) := by
  rw [parseNode.eq_def]
  simp [h]

theorem parseChildren_empty (node : SyntaxNode) (md : String)
    (h : node.children = []) :
    parseChildren node md =
      (if EMPTY_NODES.contains node.name then .ok ([], none)
       else .ok ([.text (genericTextNode node.nFrom node.nTo
         (jsSubstring md node.nFrom node.nTo))], none)) := by
  rw [parseChildren.eq_def]
  simp [h]

theorem parseChildren_go (node : SyntaxNode) (md : String)
    (h : node.children ≠ []) :
    parseChildren node md =
      parseChildrenGo node.name node.children node.nFrom node.nTo md none := by
  rw [parseChildren.eq_def]
  simp [h, List.isEmpty_iff]

theorem parseChildrenGo_nil (pn : String) (idx pto : Nat) (md : String)
    (attrs : Option Record) :
    parseChildrenGo pn [] idx pto md attrs =
      (if idx < pto && !(EMPTY_NODES.contains pn) then
        .ok ([.text (genericTextNode idx pto (jsSubstring md idx pto))], attrs)
      else .ok ([], attrs)) := by
  rw [parseChildrenGo.eq_def]

theorem parseChildrenGo_cons (pn : String) (c : SyntaxNode)
    (rest : List SyntaxNode) (idx pto : Nat) (md : String)
    (attrs : Option Record) :
    parseChildrenGo pn (c :: rest) idx pto md attrs =
      (if c.name == "PandocAttribute" then
        match parseChildrenGo pn rest c.nTo pto md
            (some (parseAttributeNode (attrs.getD []) c md)) with
        | .error e => .error e
        | .ok (kids, a) =>
          .ok ((if idx < c.nFrom && !(EMPTY_NODES.contains pn) then
              [.text (genericTextNode idx c.nFrom (jsSubstring md idx c.nFrom))]
            else []) ++ kids, a)
      else
        match parseNode c md with
        | .error e => .error e
        | .ok childAst =>
          match parseChildrenGo pn rest c.nTo pto md attrs with
          | .error e => .error e
          | .ok (kids, a) =>
            .ok ((if idx < c.nFrom && !(EMPTY_NODES.contains pn) then
                [.text (genericTextNode idx c.nFrom (jsSubstring md idx c.nFrom))]
              else []) ++ childAst :: kids, a)) := by
  rw [parseChildrenGo.eq_def]

theorem parseListItems_nil (ordered : Bool) (md : String) :
    parseListItems ordered [] md = .ok [] := by
  rw [parseListItems.eq_def]

theorem parseListItems_cons (ordered : Bool) (item : SyntaxNode)
    (rest : List SyntaxNode) (md : String) :
    parseListItems ordered (item :: rest) md =
      (match parseChildren item md with
      | .error e => .error e
      | .ok (kids, attrs) =>
        match parseListItems ordered rest md with
        | .error e => .error e
        | .ok more =>
          .ok (.listItem "ListItem" item.nFrom item.nTo attrs
            (match (item.getChild "Task").bind (fun t => t.getChild "TaskMarker") with
             | some tm => some (jsSubstring md tm.nFrom tm.nTo == "[x]")
             | none => none)
            (match item.getChild "ListMark" with
             | some lm =>
               { symbol :=
                   if !ordered && lm.nTo - lm.nFrom == 1 then
                     some (jsSubstring md lm.nFrom lm.nTo)
                   else none
                 nFrom := lm.nFrom
                 nTo := lm.nTo }
             | none => { symbol := none, nFrom := item.nFrom, nTo := item.nFrom })
            kids :: more)) := by
  rw [parseListItems.eq_def]

theorem parseTableRows_nil (md : String) : parseTableRows [] md = .ok [] := by
  rw [parseTableRows.eq_def]

theorem parseTableRows_cons (row : SyntaxNode) (rest : List SyntaxNode)
    (md : String) :
    parseTableRows (row :: rest) md =
      (match parseTableCells (row.getChildren "TableCell") md with
      | .error e => .error e
      | .ok cells =>
        match parseTableRows rest md with
        | .error e => .error e
        | .ok more =>
          .ok (.tableRow row.name row.nFrom row.nTo (row.name == "TableHeader") cells :: more)) := by
  rw [parseTableRows.eq_def]

theorem parseTableCells_nil (md : String) : parseTableCells [] md = .ok [] := by
  rw [parseTableCells.eq_def]

theorem parseTableCells_cons (cell : SyntaxNode) (rest : List SyntaxNode)
    (md : String) :
    parseTableCells (cell :: rest) md =
      (match parseChildren cell md with
      | .error e => .error e
      | .ok (kids, attrs) =>
        match parseTableCells rest md with
        | .error e => .error e
        | .ok more =>
          .ok (.tableCell "TableCell" cell.nFrom cell.nTo attrs kids :: more)) := by
  rw [parseTableCells.eq_def]

theorem goodList_nil : goodList [] = true := by
  rw [goodList.eq_def]

theorem goodList_cons (c : SyntaxNode) (rest : List SyntaxNode) :
    goodList (c :: rest) =
      ((c.name == "PandocAttribute" || goodTree c) && goodList rest) := by
  rw [goodList.eq_def]

theorem goodEach_nil : goodEach [] = true := by
  rw [goodEach.eq_def]

theorem goodEach_cons (c : SyntaxNode) (rest : List SyntaxNode) :
    goodEach (c :: rest) = (goodList c.children && goodEach rest) := by
  rw [goodEach.eq_def]

theorem goodRows_nil : goodRows [] = true := by
  rw [goodRows.eq_def]

theorem goodRows_cons (row : SyntaxNode) (rest : List SyntaxNode) :
    goodRows (row :: rest) =
      (goodEach (row.getChildren "TableCell") && goodRows rest) := by
  rw [goodRows.eq_def]

end Zettlr

namespace Zettlr

@[simp] theorem isOk_ok {α : Type} (a : α) :
    (Except.ok a : Except String α).isOk = true := rfl

@[simp] theorem isOk_error {α : Type} (e : String) :
    (Except.error e : Except String α).isOk = false := rfl

/-- The node kinds with bespoke handling in `parseNode`'s dispatch; every
other kind takes the default generic path. -/
def HANDLED : List String :=
  [ "Image", "Link", "URL",
    "ATXHeading1", "ATXHeading2", "ATXHeading3", "ATXHeading4",
    "ATXHeading5", "ATXHeading6", "SetextHeading1", "SetextHeading2",
    "Citation", "Footnote", "FootnoteRef", "Highlight",
    "OrderedList", "BulletList", "FencedCode", "CodeBlock", "InlineCode",
    "Emphasis", "StrongEmphasis", "Table", "ZknLink", "ZknTag" ]

theorem parseNode_url (node : SyntaxNode) (md : String) (h : node.name = "URL") :
    parseNode node md = .ok (.linkOrImage "Link" node.name node.nFrom node.nTo
      (genericTextNode node.nFrom node.nTo (jsSubstring md node.nFrom node.nTo))
      (genericTextNode node.nFrom node.nTo (jsSubstring md node.nFrom node.nTo))) := by
  rw [parseNode.eq_def]
  simp [h]

theorem parseNode_citation (node : SyntaxNode) (md : String)
    (h : node.name = "Citation") :
    parseNode node md = .ok (.citation "Citation" node.nFrom node.nTo
      (genericTextNode node.nFrom node.nTo (jsSubstring md node.nFrom node.nTo))
      (extractCitations (jsSubstring md node.nFrom node.nTo)).head?) := by
  rw [parseNode.eq_def]
  simp [h]

theorem parseNode_footnote (node : SyntaxNode) (md : String)
    (h : node.name = "Footnote") :
    parseNode node md = .ok (.footnote "Footnote" node.nFrom node.nTo
      (jsEndsWithChar (jsSubstring md (node.nFrom + 2) (node.nTo - 1)) '^')
      (if jsEndsWithChar (jsSubstring md (node.nFrom + 2) (node.nTo - 1)) '^' then
        jsSubstring (jsSubstring md (node.nFrom + 2) (node.nTo - 1)) 0
          ((jsSubstring md (node.nFrom + 2) (node.nTo - 1)).length - 1)
       else jsSubstring md (node.nFrom + 2) (node.nTo - 1))) := by
  rw [parseNode.eq_def]
  simp [h]

theorem parseNode_footnoteRef_body (node : SyntaxNode) (md : String)
    (body : SyntaxNode) (h : node.name = "FootnoteRef")
    (hb : node.getChild "FootnoteRefBody" = some body) :
    parseNode node md =
      match parseChildren body md with
      | .error e => .error e
      | .ok (kids, attrs) =>
        .ok (.footnoteRef "FootnoteRef" node.nFrom node.nTo attrs
          (match node.getChild "FootnoteRefLabel" with
           | some l => jsSubstring md (l.nFrom + 2) (l.nTo - 2)
           | none => "") kids) := by
  rw [parseNode.eq_def]
  simp [h]
  split
  · rename_i body2 heq
    rw [hb] at heq
    injection heq with he
    subst he
    rfl
  · rename_i heq
    rw [hb] at heq
    exact absurd heq (by simp)

theorem parseNode_footnoteRef_noBody (node : SyntaxNode) (md : String)
    (h : node.name = "FootnoteRef")
    (hb : node.getChild "FootnoteRefBody" = none) :
    parseNode node md =
      .ok (.footnoteRef "FootnoteRef" node.nFrom node.nTo none
        (match node.getChild "FootnoteRefLabel" with
         | some l => jsSubstring md (l.nFrom + 2) (l.nTo - 2)
         | none => "") []) := by
  rw [parseNode.eq_def]
  simp [h]
  split
  · rename_i body2 heq
    rw [hb] at heq
    exact absurd heq (by simp)
  · rfl

theorem parseNode_highlight (node : SyntaxNode) (md : String)
    (h : node.name = "Highlight") :
    parseNode node md =
      match parseChildren ((node.getChild "HighlightContent").getD node) md with
      | .error e => .error e
      | .ok (kids, attrs) =>
        .ok (.highlight "Highlight" node.nFrom node.nTo attrs kids) := by
  rw [parseNode.eq_def]
  simp [h]

theorem parseNode_emphasis (node : SyntaxNode) (md : String)
    (h : node.name = "Emphasis" ∨ node.name = "StrongEmphasis") :
    parseNode node md =
      match parseChildren node md with
      | .error e => .error e
      | .ok (kids, attrs) =>
        .ok (.emphasis "Emphasis" node.nFrom node.nTo attrs
          (if node.name == "Emphasis" then "italic" else "bold") kids) := by
  rw [parseNode.eq_def]
  rcases h with h | h <;> simp [h]

theorem parseNode_table (node : SyntaxNode) (md : String)
    (h : node.name = "Table") :
    parseNode node md =
      match parseTableRows (node.getChildren "TableHeader" ++ node.getChildren "TableRow") md with
      | .error e => .error e
      | .ok rows => .ok (.table "Table" node.nFrom node.nTo rows) := by
  rw [parseNode.eq_def]
  simp [h]

theorem parseNode_default (node : SyntaxNode) (md : String)
    (hn : ¬ node.name ∈ HANDLED) :
    parseNode node md =
      match parseChildren node md with
      | .error e => .error e
      | .ok (kids, attrs) =>
        .ok (.generic node.name node.nFrom node.nTo attrs kids) := by
  have hne : ∀ t, t ∈ HANDLED → (node.name == t) = false := by
    intro t ht
    exact beq_eq_false_iff_ne.mpr (fun he => hn (he ▸ ht))
  rw [parseNode.eq_def]
  simp [hne "Image" (by decide), hne "Link" (by decide), hne "URL" (by decide),
    hne "ATXHeading1" (by decide), hne "ATXHeading2" (by decide),
    hne "ATXHeading3" (by decide), hne "ATXHeading4" (by decide),
    hne "ATXHeading5" (by decide), hne "ATXHeading6" (by decide),
    hne "SetextHeading1" (by decide), hne "SetextHeading2" (by decide),
    hne "Citation" (by decide), hne "Footnote" (by decide),
    hne "FootnoteRef" (by decide), hne "Highlight" (by decide),
    hne "OrderedList" (by decide), hne "BulletList" (by decide),
    hne "FencedCode" (by decide), hne "CodeBlock" (by decide),
    hne "InlineCode" (by decide), hne "Emphasis" (by decide),
    hne "StrongEmphasis" (by decide), hne "Table" (by decide),
    hne "ZknLink" (by decide), hne "ZknTag" (by decide)]

theorem goodTree_simple (node : SyntaxNode)
    (h : node.name ∈ ([ "Image", "Link", "URL",
      "ATXHeading1", "ATXHeading2", "ATXHeading3", "ATXHeading4",
      "ATXHeading5", "ATXHeading6", "SetextHeading1", "SetextHeading2",
      "Citation", "Footnote", "FencedCode", "CodeBlock", "ZknTag" ] : List String)) :
    goodTree node = true := by
  rw [goodTree.eq_def]
  simp only [List.mem_cons, List.not_mem_nil, or_false] at h
  rcases h with h|h|h|h|h|h|h|h|h|h|h|h|h|h|h|h <;> simp [h]

theorem goodTree_footnoteRef_body (node : SyntaxNode) (body : SyntaxNode)
    (h : node.name = "FootnoteRef")
    (hb : node.getChild "FootnoteRefBody" = some body) :
    goodTree node = goodList body.children := by
  rw [goodTree.eq_def]
  simp [h]
  split
  · rename_i body2 heq
    rw [hb] at heq
    injection heq with he
    subst he
    rfl
  · rename_i heq
    rw [hb] at heq
    exact absurd heq (by simp)

theorem goodTree_footnoteRef_noBody (node : SyntaxNode)
    (h : node.name = "FootnoteRef")
    (hb : node.getChild "FootnoteRefBody" = none) :
    goodTree node = true := by
  rw [goodTree.eq_def]
  simp [h]
  split
  · rename_i body2 heq
    rw [hb] at heq
    exact absurd heq (by simp)
  · rfl

theorem goodTree_highlight (node : SyntaxNode) (h : node.name = "Highlight") :
    goodTree node = goodList ((node.getChild "HighlightContent").getD node).children := by
  rw [goodTree.eq_def]
  simp [h]

theorem goodTree_list (node : SyntaxNode)
    (h : node.name = "OrderedList" ∨ node.name = "BulletList") :
    goodTree node = goodEach (node.getChildren "ListItem") := by
  rw [goodTree.eq_def]
  rcases h with h | h <;> simp [h]

theorem goodTree_inlineCode (node : SyntaxNode) (h : node.name = "InlineCode") :
    goodTree node =
      match node.getChildren "CodeMark" with
      | _ :: _ :: _ => true
      | _ => false := by
  rw [goodTree.eq_def]
  simp [h]

theorem goodTree_emphasis (node : SyntaxNode)
    (h : node.name = "Emphasis" ∨ node.name = "StrongEmphasis") :
    goodTree node = goodList node.children := by
  rw [goodTree.eq_def]
  rcases h with h | h <;> simp [h]

theorem goodTree_table (node : SyntaxNode) (h : node.name = "Table") :
    goodTree node =
      goodRows (node.getChildren "TableHeader" ++ node.getChildren "TableRow") := by
  rw [goodTree.eq_def]
  simp [h]

theorem goodTree_zknLink (node : SyntaxNode) (h : node.name = "ZknLink") :
    goodTree node = (node.getChild "ZknLinkContent").isSome := by
  rw [goodTree.eq_def]
  simp [h]

theorem goodTree_default (node : SyntaxNode) (hn : ¬ node.name ∈ HANDLED) :
    goodTree node = goodList node.children := by
  have hne : ∀ t, t ∈ HANDLED → (node.name == t) = false := by
    intro t ht
    exact beq_eq_false_iff_ne.mpr (fun he => hn (he ▸ ht))
  rw [goodTree.eq_def]
  simp [hne "Image" (by decide), hne "Link" (by decide), hne "URL" (by decide),
    hne "ATXHeading1" (by decide), hne "ATXHeading2" (by decide),
    hne "ATXHeading3" (by decide), hne "ATXHeading4" (by decide),
    hne "ATXHeading5" (by decide), hne "ATXHeading6" (by decide),
    hne "SetextHeading1" (by decide), hne "SetextHeading2" (by decide),
    hne "Citation" (by decide), hne "Footnote" (by decide),
    hne "FootnoteRef" (by decide), hne "Highlight" (by decide),
    hne "OrderedList" (by decide), hne "BulletList" (by decide),
    hne "FencedCode" (by decide), hne "CodeBlock" (by decide),
    hne "InlineCode" (by decide), hne "Emphasis" (by decide),
    hne "StrongEmphasis" (by decide), hne "Table" (by decide),
    hne "ZknLink" (by decide), hne "ZknTag" (by decide)]

end Zettlr

namespace Zettlr

set_option maxHeartbeats 1600000 in
theorem conv_isOk_master (k : Nat) :
    (∀ n : SyntaxNode, ∀ md : String, n.weight ≤ k →
       (parseChildren n md).isOk = goodList n.children)
  ∧ (∀ n : SyntaxNode, ∀ md : String, n.weight ≤ k →
       (parseNode n md).isOk = goodTree n)
  ∧ (∀ cs : List SyntaxNode, weightList cs ≤ k → ∀ pn idx pto md attrs,
       (parseChildrenGo pn cs idx pto md attrs).isOk = goodList cs)
  ∧ (∀ cs : List SyntaxNode, weightList cs ≤ k → ∀ o md,
       (parseListItems o cs md).isOk = goodEach cs)
  ∧ (∀ cs : List SyntaxNode, weightList cs ≤ k → ∀ md,
       (parseTableCells cs md).isOk = goodEach cs)
  ∧ (∀ cs : List SyntaxNode, weightList cs ≤ k → ∀ md,
       (parseTableRows cs md).isOk = goodRows cs) := by
  induction k using Nat.strong_induction_on with
  | _ k IH =>
    have hPC : ∀ n : SyntaxNode, ∀ md : String, n.weight ≤ k →
        (parseChildren n md).isOk = goodList n.children := by
      intro n md hw
      by_cases hc : n.children = []
      · rw [parseChildren_empty n md hc, hc, goodList_nil]
        split <;> rfl
      · rw [parseChildren_go n md hc]
        have hwc := weight_eq_children n
        have hpos := weight_pos n
        exact (IH (weightList n.children) (by omega)).2.2.1 n.children (le_refl _)
          n.name n.nFrom n.nTo md none
    have hPN : ∀ n : SyntaxNode, ∀ md : String, n.weight ≤ k →
        (parseNode n md).isOk = goodTree n := by
      intro n md hw
      have hk1 : 1 ≤ k := le_trans (weight_pos n) hw
      have hwc := weight_eq_children n
      by_cases h1 : n.name = "Image" ∨ n.name = "Link"
      · rw [goodTree_simple n (by rcases h1 with h | h <;> simp [h])]
        cases hu : n.getChild "URL" with
        | none => rw [parseNode_linkImage_noUrl n md h1 hu]; rfl
        | some url => rw [parseNode_linkImage_url n md url h1 hu]; rfl
      · by_cases h2 : n.name = "URL"
        · rw [parseNode_url n md h2, goodTree_simple n (by simp [h2])]; rfl
        · by_cases h3 : n.name = "ATXHeading1" ∨ n.name = "ATXHeading2" ∨
            n.name = "ATXHeading3" ∨ n.name = "ATXHeading4" ∨
            n.name = "ATXHeading5" ∨ n.name = "ATXHeading6"
          · rw [parseNode_atx n md h3,
              goodTree_simple n (by rcases h3 with h | h | h | h | h | h <;> simp [h])]
            rfl
          · by_cases h4 : n.name = "SetextHeading1" ∨ n.name = "SetextHeading2"
            · rw [parseNode_setext n md h4,
                goodTree_simple n (by rcases h4 with h | h <;> simp [h])]
              rfl
            · by_cases h5 : n.name = "Citation"
              · rw [parseNode_citation n md h5, goodTree_simple n (by simp [h5])]; rfl
              · by_cases h6 : n.name = "Footnote"
                · rw [parseNode_footnote n md h6, goodTree_simple n (by simp [h6])]; rfl
                · by_cases h7 : n.name = "FootnoteRef"
                  · cases hb : n.getChild "FootnoteRefBody" with
                    | none =>
                      rw [parseNode_footnoteRef_noBody n md h7 hb,
                        goodTree_footnoteRef_noBody n h7 hb]
                      rfl
                    | some body =>
                      rw [parseNode_footnoteRef_body n md body h7 hb,
                        goodTree_footnoteRef_body n body h7 hb]
                      have hwb := weight_lt_of_getChild hb
                      have hbc := hPC body md (by omega)
                      rcases hpc : parseChildren body md with e | ⟨kids, attrs⟩ <;>
                        rw [hpc] at hbc <;> simp [← hbc]
                  · by_cases h8 : n.name = "Highlight"
                    · rw [parseNode_highlight n md h8, goodTree_highlight n h8]
                      have hwm : ((n.getChild "HighlightContent").getD n).weight ≤ k := by
                        cases hc2 : n.getChild "HighlightContent" with
                        | none => simpa using hw
                        | some c =>
                          have := weight_lt_of_getChild hc2
                          simp only [Option.getD]
                          omega
                      have hmc := hPC ((n.getChild "HighlightContent").getD n) md hwm
                      rcases hpc : parseChildren ((n.getChild "HighlightContent").getD n) md with
                        e | ⟨kids, attrs⟩ <;> rw [hpc] at hmc <;> simp [← hmc]
                    · by_cases h9 : n.name = "OrderedList" ∨ n.name = "BulletList"
                      · rw [parseNode_list n md h9, goodTree_list n h9]
                        have hb1 := weightList_getChildren_le n "ListItem"
                        have hli := (IH (k - 1) (by omega)).2.2.2.1
                          (n.getChildren "ListItem") (by omega) (n.name == "OrderedList") md
                        rcases hp : parseListItems (n.name == "OrderedList")
                            (n.getChildren "ListItem") md with e | items <;>
                          rw [hp] at hli <;> simp [← hli]
                      · by_cases h10 : n.name = "FencedCode" ∨ n.name = "CodeBlock"
                        · rw [parseNode_fenced n md h10,
                            goodTree_simple n (by rcases h10 with h | h <;> simp [h])]
                          rfl
                        · by_cases h11 : n.name = "InlineCode"
                          · rw [parseNode_inlineCode n md h11, goodTree_inlineCode n h11]
                            rcases hcm : n.getChildren "CodeMark" with _ | ⟨s0, _ | ⟨e0, tl⟩⟩ <;> rfl
                          · by_cases h12 : n.name = "Emphasis" ∨ n.name = "StrongEmphasis"
                            · rw [parseNode_emphasis n md h12, goodTree_emphasis n h12]
                              have hec := hPC n md hw
                              rcases hpc : parseChildren n md with e | ⟨kids, attrs⟩ <;>
                                rw [hpc] at hec <;> simp [← hec]
                            · by_cases h13 : n.name = "Table"
                              · rw [parseNode_table n md h13, goodTree_table n h13]
                                have hb1 := weightList_table_le n
                                have hrw := (IH (k - 1) (by omega)).2.2.2.2.2
                                  (n.getChildren "TableHeader" ++ n.getChildren "TableRow")
                                  (by omega) md
                                rcases hp : parseTableRows
                                    (n.getChildren "TableHeader" ++ n.getChildren "TableRow") md with
                                  e | rows <;> rw [hp] at hrw <;> simp [← hrw]
                              · by_cases h14 : n.name = "ZknLink"
                                · rw [parseNode_zknLink n md h14, goodTree_zknLink n h14]
                                  cases hz : n.getChild "ZknLinkContent" <;> rfl
                                · by_cases h15 : n.name = "ZknTag"
                                  · rw [parseNode_zknTag n md h15,
                                      goodTree_simple n (by simp [h15])]
                                    rfl
                                  · have hn : ¬ n.name ∈ HANDLED := by
                                      intro hmem
                                      simp only [HANDLED, List.mem_cons,
                                        List.not_mem_nil, or_false] at hmem
                                      tauto
                                    rw [parseNode_default n md hn, goodTree_default n hn]
                                    have hec := hPC n md hw
                                    rcases hpc : parseChildren n md with e | ⟨kids, attrs⟩ <;>
                                      rw [hpc] at hec <;> simp [← hec]
    have hGO : ∀ cs : List SyntaxNode, weightList cs ≤ k → ∀ pn idx pto md attrs,
        (parseChildrenGo pn cs idx pto md attrs).isOk = goodList cs := by
      intro cs hcs pn idx pto md attrs
      cases cs with
      | nil =>
        rw [parseChildrenGo_nil, goodList_nil]
        split <;> rfl
      | cons c rest =>
        have hwcp := weight_pos c
        have hwl : weightList (c :: rest) = c.weight + weightList rest :=
          weightList_cons c rest
        rw [parseChildrenGo_cons, goodList_cons]
        have hrest := (IH (k - 1) (by omega)).2.2.1 rest (by omega) pn c.nTo pto md
        by_cases hp : c.name = "PandocAttribute"
        · have hp' : (c.name == "PandocAttribute") = true := by simp [hp]
          simp only [hp', Bool.true_or, Bool.true_and, if_true]
          have hrest2 := hrest (some (parseAttributeNode (attrs.getD []) c md))
          rcases hgo : parseChildrenGo pn rest c.nTo pto md
              (some (parseAttributeNode (attrs.getD []) c md)) with e | ⟨kids, a⟩ <;>
            rw [hgo] at hrest2 <;> simp [← hrest2]
        · have hp' : (c.name == "PandocAttribute") = false := by simp [hp]
          have hpn := hPN c md (by omega)
          simp only [hp', Bool.false_or, Bool.false_eq_true, if_false]
          rcases hpnv : parseNode c md with e | childAst
          · rw [hpnv] at hpn
            simp [← hpn]
          · rw [hpnv] at hpn
            have hrest2 := hrest attrs
            rcases hgo : parseChildrenGo pn rest c.nTo pto md attrs with e | ⟨kids, a⟩ <;>
              rw [hgo] at hrest2 <;> simp [← hpn, ← hrest2]
    have hLI : ∀ cs : List SyntaxNode, weightList cs ≤ k → ∀ o md,
        (parseListItems o cs md).isOk = goodEach cs := by
      intro cs hcs o md
      cases cs with
      | nil => rw [parseListItems_nil, goodEach_nil]; rfl
      | cons item rest =>
        have hwcp := weight_pos item
        have hwl : weightList (item :: rest) = item.weight + weightList rest :=
          weightList_cons item rest
        rw [parseListItems_cons, goodEach_cons]
        have hic := hPC item md (by omega)
        have hrest := (IH (k - 1) (by omega)).2.2.2.1 rest (by omega) o md
        rcases hpc : parseChildren item md with e | ⟨kids, attrs⟩
        · rw [hpc] at hic
          simp [← hic]
        · rw [hpc] at hic
          rcases hli : parseListItems o rest md with e | more <;>
            rw [hli] at hrest <;> simp [← hic, ← hrest]
    have hCE : ∀ cs : List SyntaxNode, weightList cs ≤ k → ∀ md,
        (parseTableCells cs md).isOk = goodEach cs := by
      intro cs hcs md
      cases cs with
      | nil => rw [parseTableCells_nil, goodEach_nil]; rfl
      | cons cell rest =>
        have hwcp := weight_pos cell
        have hwl : weightList (cell :: rest) = cell.weight + weightList rest :=
          weightList_cons cell rest
        rw [parseTableCells_cons, goodEach_cons]
        have hic := hPC cell md (by omega)
        have hrest := (IH (k - 1) (by omega)).2.2.2.2.1 rest (by omega) md
        rcases hpc : parseChildren cell md with e | ⟨kids, attrs⟩
        · rw [hpc] at hic
          simp [← hic]
        · rw [hpc] at hic
          rcases hce : parseTableCells rest md with e | more <;>
            rw [hce] at hrest <;> simp [← hic, ← hrest]
    have hRW : ∀ cs : List SyntaxNode, weightList cs ≤ k → ∀ md,
        (parseTableRows cs md).isOk = goodRows cs := by
      intro cs hcs md
      cases cs with
      | nil => rw [parseTableRows_nil, goodRows_nil]; rfl
      | cons row rest =>
        have hwcp := weight_pos row
        have hwl : weightList (row :: rest) = row.weight + weightList rest :=
          weightList_cons row rest
        have hb1 := weightList_getChildren_le row "TableCell"
        have hwc := weight_eq_children row
        rw [parseTableRows_cons, goodRows_cons]
        have hic := (IH (k - 1) (by omega)).2.2.2.2.1 (row.getChildren "TableCell")
          (by omega) md
        have hrest := (IH (k - 1) (by omega)).2.2.2.2.2 rest (by omega) md
        rcases hpc : parseTableCells (row.getChildren "TableCell") md with e | cells
        · rw [hpc] at hic
          simp [← hic]
        · rw [hpc] at hic
          rcases hrw : parseTableRows rest md with e | more <;>
            rw [hrw] at hrest <;> simp [← hic, ← hrest]
    exact ⟨hPC, hPN, hGO, hLI, hCE, hRW⟩

end Zettlr

namespace Zettlr

/-- C1 (amended) — `parseNode` fails exactly on the syntax trees that
`goodTree` rejects: the conversion raises an error if and only if some node
reached by the conversion has kind `ZknLink` and lacks a `ZknLinkContent`
child, or has kind `InlineCode` and lacks two `CodeMark` children; on every
other input it returns an AST node without raising. -/
theorem parseNode_isOk_iff_goodTree (n : SyntaxNode) (md : String) :
    (parseNode n md).isOk = goodTree n :=
  (conv_isOk_master n.weight).2.1 n md (le_refl _)

/-- C1 counterexample — an `InlineCode` node with no `CodeMark` children is
not a `ZknLink` missing its content child, yet `parseNode` raises on it
(the original destructures two `CodeMark` children and dereferences them). -/
theorem inlineCode_without_marks_raises :
    parseNode (SyntaxNode.mk "InlineCode" 0 2 []) "ab" =
      .error "TypeError: cannot read from undefined CodeMark child" ∧
    (SyntaxNode.mk "InlineCode" 0 2 []).name ≠ "ZknLink" := by
  constructor
  · rw [parseNode_inlineCode (SyntaxNode.mk "InlineCode" 0 2 []) "ab" rfl]
    rfl
  · decide

theorem parseNode_range_aux (n : SyntaxNode) (md : String) (a : ASTNode)
    (h : parseNode n md = .ok a) : a.nFrom = n.nFrom ∧ a.nTo = n.nTo := by
  by_cases h1 : n.name = "Image" ∨ n.name = "Link"
  · cases hu : n.getChild "URL" with
    | none =>
      rw [parseNode_linkImage_noUrl n md h1 hu] at h
      injection h with he
      subst he
      exact ⟨rfl, rfl⟩
    | some url =>
      rw [parseNode_linkImage_url n md url h1 hu] at h
      injection h with he
      subst he
      exact ⟨rfl, rfl⟩
  · by_cases h2 : n.name = "URL"
    · rw [parseNode_url n md h2] at h
      injection h with he
      subst he
      exact ⟨rfl, rfl⟩
    · by_cases h3 : n.name = "ATXHeading1" ∨ n.name = "ATXHeading2" ∨
        n.name = "ATXHeading3" ∨ n.name = "ATXHeading4" ∨
        n.name = "ATXHeading5" ∨ n.name = "ATXHeading6"
      · rw [parseNode_atx n md h3] at h
        injection h with he
        subst he
        exact ⟨rfl, rfl⟩
      · by_cases h4 : n.name = "SetextHeading1" ∨ n.name = "SetextHeading2"
        · rw [parseNode_setext n md h4] at h
          injection h with he
          subst he
          exact ⟨rfl, rfl⟩
        · by_cases h5 : n.name = "Citation"
          · rw [parseNode_citation n md h5] at h
            injection h with he
            subst he
            exact ⟨rfl, rfl⟩
          · by_cases h6 : n.name = "Footnote"
            · rw [parseNode_footnote n md h6] at h
              injection h with he
              subst he
              exact ⟨rfl, rfl⟩
            · by_cases h7 : n.name = "FootnoteRef"
              · cases hb : n.getChild "FootnoteRefBody" with
                | none =>
                  rw [parseNode_footnoteRef_noBody n md h7 hb] at h
                  injection h with he
                  subst he
                  exact ⟨rfl, rfl⟩
                | some body =>
                  rw [parseNode_footnoteRef_body n md body h7 hb] at h
                  rcases hpc : parseChildren body md with e | ⟨kids, attrs⟩ <;>
                    rw [hpc] at h
                  · exact absurd h (by simp)
                  · injection h with he
                    subst he
                    exact ⟨rfl, rfl⟩
              · by_cases h8 : n.name = "Highlight"
                · rw [parseNode_highlight n md h8] at h
                  rcases hpc : parseChildren ((n.getChild "HighlightContent").getD n) md with
                    e | ⟨kids, attrs⟩ <;> rw [hpc] at h
                  · exact absurd h (by simp)
                  · injection h with he
                    subst he
                    exact ⟨rfl, rfl⟩
                · by_cases h9 : n.name = "OrderedList" ∨ n.name = "BulletList"
                  · rw [parseNode_list n md h9] at h
                    rcases hp : parseListItems (n.name == "OrderedList")
                        (n.getChildren "ListItem") md with e | items <;> rw [hp] at h
                    · exact absurd h (by simp)
                    · injection h with he
                      subst he
                      exact ⟨rfl, rfl⟩
                  · by_cases h10 : n.name = "FencedCode" ∨ n.name = "CodeBlock"
                    · rw [parseNode_fenced n md h10] at h
                      injection h with he
                      subst he
                      exact ⟨rfl, rfl⟩
                    · by_cases h11 : n.name = "InlineCode"
                      · rw [parseNode_inlineCode n md h11] at h
                        rcases hcm : n.getChildren "CodeMark" with _ | ⟨s0, _ | ⟨e0, tl⟩⟩ <;>
                          rw [hcm] at h
                        · exact absurd h (by simp)
                        · exact absurd h (by simp)
                        · injection h with he
                          subst he
                          exact ⟨rfl, rfl⟩
                      · by_cases h12 : n.name = "Emphasis" ∨ n.name = "StrongEmphasis"
                        · rw [parseNode_emphasis n md h12] at h
                          rcases hpc : parseChildren n md with e | ⟨kids, attrs⟩ <;>
                            rw [hpc] at h
                          · exact absurd h (by simp)
                          · injection h with he
                            subst he
                            exact ⟨rfl, rfl⟩
                        · by_cases h13 : n.name = "Table"
                          · rw [parseNode_table n md h13] at h
                            rcases hp : parseTableRows
                                (n.getChildren "TableHeader" ++ n.getChildren "TableRow") md with
                              e | rows <;> rw [hp] at h
                            · exact absurd h (by simp)
                            · injection h with he
                              subst he
                              exact ⟨rfl, rfl⟩
                          · by_cases h14 : n.name = "ZknLink"
                            · rw [parseNode_zknLink n md h14] at h
                              cases hz : n.getChild "ZknLinkContent" <;> rw [hz] at h
                              · exact absurd h (by simp)
                              · injection h with he
                                subst he
                                exact ⟨rfl, rfl⟩
                            · by_cases h15 : n.name = "ZknTag"
                              · rw [parseNode_zknTag n md h15] at h
                                injection h with he
                                subst he
                                exact ⟨rfl, rfl⟩
                              · have hn : ¬ n.name ∈ HANDLED := by
                                  intro hmem
                                  simp only [HANDLED, List.mem_cons,
                                    List.not_mem_nil, or_false] at hmem
                                  tauto
                                rw [parseNode_default n md hn] at h
                                rcases hpc : parseChildren n md with e | ⟨kids, attrs⟩ <;>
                                  rw [hpc] at h
                                · exact absurd h (by simp)
                                · injection h with he
                                  subst he
                                  exact ⟨rfl, rfl⟩

/-- C4 — whenever `parseNode` returns an AST node, that node's `[nFrom, nTo)`
range equals the input syntax node's range, for every node kind including the
generic fallback. -/
theorem parseNode_preserves_range (n : SyntaxNode) (md : String) (a : ASTNode)
    (h : parseNode n md = .ok a) : a.nFrom = n.nFrom ∧ a.nTo = n.nTo :=
  parseNode_range_aux n md a h

/-- C4 witness: the range preservation theorem applied to a concrete
`ZknTag` node spanning `[2, 6)`. -/
theorem parseNode_preserves_range_witness :
    (ASTNode.zknTag "ZknTag" 2 6 (genericTextNode 2 6 "#tag")).nFrom = 2 ∧
    (ASTNode.zknTag "ZknTag" 2 6 (genericTextNode 2 6 "#tag")).nTo = 6 :=
  parseNode_preserves_range (SyntaxNode.mk "ZknTag" 2 6 []) "ab#tag" _ (by
    rw [parseNode_zknTag (SyntaxNode.mk "ZknTag" 2 6 []) "ab#tag" rfl]
    rfl)

end Zettlr

namespace Zettlr

/-- C2 (amended) — for a `Link`/`Image` node with a `URL` child, the
produced node's `alt` equals the URL's own text node unless the `LinkLabel`
child is absent and at least two `LinkMark` children exist, in which case
`alt` is the span between the end of the first and the start of the second
`LinkMark`.  In particular, when a `LinkLabel` child is present its content
is not used: `alt` remains the URL text. -/
theorem link_alt_resolution (n : SyntaxNode) (md : String) (url : SyntaxNode)
    (h : n.name = "Link" ∨ n.name = "Image")
    (hu : n.getChild "URL" = some url) :
    parseNode n md = .ok (.linkOrImage n.name n.name n.nFrom n.nTo
      (genericTextNode url.nFrom url.nTo (jsSubstring md url.nFrom url.nTo))
      (match n.getChild "LinkLabel", n.getChildren "LinkMark" with
       | none, m0 :: m1 :: _ =>
         genericTextNode m0.nTo m1.nFrom (jsSubstring md m0.nTo m1.nFrom)
       | _, _ =>
         genericTextNode url.nFrom url.nTo (jsSubstring md url.nFrom url.nTo))) :=
  parseNode_linkImage_url n md url (by tauto) hu

/-- C2 witness: a link with no `LinkLabel` child and two `LinkMark` children
falls back to the between-marks span for `alt`. -/
theorem link_alt_resolution_witness :
    parseNode (SyntaxNode.mk "Link" 0 8
        [SyntaxNode.mk "LinkMark" 0 1 [], SyntaxNode.mk "LinkMark" 3 4 [],
         SyntaxNode.mk "URL" 5 7 []]) "[ab](cd)" =
      .ok (.linkOrImage "Link" "Link" 0 8 (genericTextNode 5 7 "cd")
        (genericTextNode 1 3 "ab")) := by
  rw [link_alt_resolution (SyntaxNode.mk "Link" 0 8
      [SyntaxNode.mk "LinkMark" 0 1 [], SyntaxNode.mk "LinkMark" 3 4 [],
       SyntaxNode.mk "URL" 5 7 []]) "[ab](cd)" (SyntaxNode.mk "URL" 5 7 [])
      (Or.inl rfl) rfl]
  rfl

/-- C2 counterexample — a link with a `LinkLabel` child spanning `"ab"` still
gets the URL text `"cd"` as `alt`: the label child's content is never read,
so `alt` is not taken from the label child. -/
theorem link_alt_ignores_label :
    parseNode (SyntaxNode.mk "Link" 0 8
        [SyntaxNode.mk "LinkMark" 0 1 [], SyntaxNode.mk "LinkLabel" 1 3 [],
         SyntaxNode.mk "LinkMark" 3 4 [], SyntaxNode.mk "URL" 5 7 []]) "[ab](cd)" =
      .ok (.linkOrImage "Link" "Link" 0 8 (genericTextNode 5 7 "cd")
        (genericTextNode 5 7 "cd")) ∧
    jsSubstring "[ab](cd)" 1 3 = "ab" ∧ ("cd" : String) ≠ "ab" := by
  refine ⟨?_, rfl, by decide⟩
  rw [parseNode_linkImage_url (SyntaxNode.mk "Link" 0 8
      [SyntaxNode.mk "LinkMark" 0 1 [], SyntaxNode.mk "LinkLabel" 1 3 [],
       SyntaxNode.mk "LinkMark" 3 4 [], SyntaxNode.mk "URL" 5 7 []]) "[ab](cd)"
      (SyntaxNode.mk "URL" 5 7 []) (Or.inr rfl) rfl]
  rfl

/-- C5 — a `Link`/`Image` node with no `URL` child converts, without
raising, to a `Generic` node over the full range whose single `Text` child
is the verbatim source substring of that range. -/
theorem link_without_url_degrades (n : SyntaxNode) (md : String)
    (h : n.name = "Link" ∨ n.name = "Image")
    (hu : n.getChild "URL" = none) :
    parseNode n md = .ok (.generic n.name n.nFrom n.nTo none
      [.text (genericTextNode n.nFrom n.nTo (jsSubstring md n.nFrom n.nTo))]) :=
  parseNode_linkImage_noUrl n md (by tauto) hu

/-- C5 witness: a malformed link `[ab]` with only a `LinkMark` child becomes
a Generic node holding the raw text. -/
theorem link_without_url_degrades_witness :
    parseNode (SyntaxNode.mk "Link" 0 4 [SyntaxNode.mk "LinkMark" 0 1 []]) "[ab]" =
      .ok (.generic "Link" 0 4 none [.text (genericTextNode 0 4 "[ab]")]) := by
  rw [link_without_url_degrades (SyntaxNode.mk "Link" 0 4
      [SyntaxNode.mk "LinkMark" 0 1 []]) "[ab]" (Or.inl rfl) rfl]
  rfl

end Zettlr

namespace Zettlr

@[simp] theorem tiles_nil (a b : Nat) : tiles a [] b = (a == b) := rfl

@[simp] theorem text_nFrom (t : TextNode) : (ASTNode.text t).nFrom = t.nFrom := rfl

@[simp] theorem text_nTo (t : TextNode) : (ASTNode.text t).nTo = t.nTo := rfl

@[simp] theorem tiles_cons (a b : Nat) (r : Nat × Nat) (rest : List (Nat × Nat)) :
    tiles a (r :: rest) b = (r.1 == a && decide (r.1 ≤ r.2) && tiles r.2 rest b) := rfl

theorem go_tiles (cs : List SyntaxNode) :
    ∀ (idx pto : Nat) (pn : String) (md : String) (attrs : Option Record)
      (kids : List ASTNode) (a : Option Record),
    EMPTY_NODES.contains pn = false →
    chainWF idx cs pto = true →
    (∀ c ∈ cs, c.name ≠ "PandocAttribute") →
    parseChildrenGo pn cs idx pto md attrs = .ok (kids, a) →
    tiles idx (kids.map ASTNode.range) pto = true := by
  induction cs with
  | nil =>
    intro idx pto pn md attrs kids a hemp hwf hnp hgo
    rw [parseChildrenGo_nil] at hgo
    rw [hemp] at hgo
    simp only [Bool.not_false, Bool.and_true] at hgo
    have hle : idx ≤ pto := by simpa [chainWF] using hwf
    by_cases hlt : idx < pto
    · rw [if_pos (by simpa using hlt)] at hgo
      rw [Except.ok.injEq, Prod.mk.injEq] at hgo
      obtain ⟨hk, ha⟩ := hgo
      subst hk
      simp [ASTNode.range, genericTextNode]
      omega
    · have heq : idx = pto := by omega
      rw [if_neg (by simpa using hlt)] at hgo
      rw [Except.ok.injEq, Prod.mk.injEq] at hgo
      obtain ⟨hk, ha⟩ := hgo
      subst hk
      simp [heq]
  | cons c rest ih =>
    intro idx pto pn md attrs kids a hemp hwf hnp hgo
    rw [parseChildrenGo_cons] at hgo
    have hc : (c.name == "PandocAttribute") = false :=
      beq_eq_false_iff_ne.mpr (hnp c (List.mem_cons_self c rest))
    rw [hc] at hgo
    simp only [Bool.false_eq_true, if_false] at hgo
    rcases hpn : parseNode c md with e | childAst <;> rw [hpn] at hgo
    · exact absurd hgo (by simp)
    · rcases hgo2 : parseChildrenGo pn rest c.nTo pto md attrs with e | ⟨kids2, a2⟩ <;>
        rw [hgo2] at hgo
      · exact absurd hgo (by simp)
      · rw [Except.ok.injEq, Prod.mk.injEq] at hgo
        obtain ⟨hk, ha⟩ := hgo
        subst hk
        have hwf2 : (decide (idx ≤ c.nFrom) && decide (c.nFrom ≤ c.nTo) &&
            chainWF c.nTo rest pto) = true := by
          simpa [chainWF] using hwf
        simp only [Bool.and_eq_true, decide_eq_true_eq] at hwf2
        obtain ⟨⟨hw1, hw2⟩, hw3⟩ := hwf2
        have hrange := parseNode_range_aux c md childAst hpn
        have hrest := ih c.nTo pto pn md attrs kids2 a2 hemp hw3
          (fun x hx => hnp x (List.mem_cons_of_mem c hx)) hgo2
        simp only [hemp, Bool.not_false, Bool.and_true]
        by_cases hlt : idx < c.nFrom
        · rw [if_pos (by simpa using hlt)]
          simp [ASTNode.range, genericTextNode, hrange.1, hrange.2, hrest]
          omega
        · have heq : idx = c.nFrom := by omega
          rw [if_neg (by simpa using hlt)]
          simp [ASTNode.range, hrange.1, hrange.2, hrest, heq]
          omega

/-- C3 (amended) — children aggregation for a node whose kind is not in the
empty set, with well-formed sub-node ranges and no `PandocAttribute`
sub-node: with no sub-nodes the result is exactly one verbatim `Text` child
over the node's range; with sub-nodes the resulting children's ranges tile
`[nFrom, nTo)` with no gaps and no overlaps. -/
theorem parseChildren_text_coverage (n : SyntaxNode) (md : String)
    (hemp : EMPTY_NODES.contains n.name = false)
    (hwf : childrenWF n = true)
    (hnp : ∀ c ∈ n.children, c.name ≠ "PandocAttribute") :
    (n.children = [] →
      parseChildren n md =
        .ok ([.text (genericTextNode n.nFrom n.nTo (jsSubstring md n.nFrom n.nTo))], none))
    ∧ (∀ kids attrs, parseChildren n md = .ok (kids, attrs) →
        tiles n.nFrom (kids.map ASTNode.range) n.nTo = true) := by
  constructor
  · intro hc
    rw [parseChildren_empty n md hc, hemp]
    simp
  · intro kids attrs hp
    by_cases hc : n.children = []
    · rw [parseChildren_empty n md hc, hemp] at hp
      simp only [Bool.false_eq_true, if_false] at hp
      rw [Except.ok.injEq, Prod.mk.injEq] at hp
      obtain ⟨hk, ha⟩ := hp
      subst hk
      have hle : n.nFrom ≤ n.nTo := by
        have hwf2 := hwf
        rw [childrenWF, hc] at hwf2
        simpa [chainWF] using hwf2
      simp [ASTNode.range, genericTextNode]
      omega
    · rw [parseChildren_go n md hc] at hp
      exact go_tiles n.children n.nFrom n.nTo n.name md none kids attrs hemp
        (by rw [childrenWF] at hwf; exact hwf) hnp hp

/-- C3 counterexample — a paragraph `[0,6)` whose single sub-node is a
`PandocAttribute` spanning `[2,6)`: the attribute's span is consumed without
producing any child, so the resulting children's ranges do not tile the
node's range. -/
theorem pandoc_attribute_breaks_tiling :
    parseChildren (SyntaxNode.mk "Paragraph" 0 6
        [SyntaxNode.mk "PandocAttribute" 2 6 []]) "ab\x7b.c\x7d" =
      .ok ([.text (genericTextNode 0 2 "ab")], some [("class", "c")]) ∧
    tiles 0 ([ASTNode.text (genericTextNode 0 2 "ab")].map ASTNode.range) 6 = false := by
  constructor
  · rw [parseChildren_go _ _ (by simp)]
    simp only [SyntaxNode.name_mk, SyntaxNode.children_mk, SyntaxNode.nFrom_mk, SyntaxNode.nTo_mk]
    simp only [parseChildrenGo_cons, parseChildrenGo_nil]
    rfl
  · rfl

/-- C3 witness: the coverage theorem applied to a paragraph with one
`ZknTag` sub-node and gaps on both sides. -/
theorem parseChildren_text_coverage_witness :
    tiles 0 ([ASTNode.text (genericTextNode 0 1 "a"),
      ASTNode.zknTag "ZknTag" 1 3 (genericTextNode 1 3 "#b"),
      ASTNode.text (genericTextNode 3 5 "cd")].map ASTNode.range) 5 = true :=
  (parseChildren_text_coverage
    (SyntaxNode.mk "Paragraph" 0 5 [SyntaxNode.mk "ZknTag" 1 3 []]) "a#bcd"
    rfl rfl (by
      intro c hc
      simp only [SyntaxNode.children_mk, List.mem_cons, List.not_mem_nil, or_false] at hc
      subst hc
      decide)).2 _ _ (by
    rw [parseChildren_go _ _ (by simp)]
    simp only [SyntaxNode.name_mk, SyntaxNode.children_mk, SyntaxNode.nFrom_mk, SyntaxNode.nTo_mk]
    rw [parseChildrenGo_cons,
      parseNode_zknTag (SyntaxNode.mk "ZknTag" 1 3 []) "a#bcd" rfl]
    simp only [parseChildrenGo_nil]
    rfl)

/-- C6 — merging two Pandoc attribute blocks (class `.a`, id `one`, `key=1`,
then class `.b`, id `two`, `key=2`) onto the same parent: classes accumulate
space-separated in order, only the first id entry is kept, and the later
`key=value` entry overrides the earlier one, yielding class `"a b"`, id
`"one"`, key `"2"`. -/
theorem pandoc_attribute_merge_order :
    parseChildren (SyntaxNode.mk "Paragraph" 0 31
        [SyntaxNode.mk "PandocAttribute" 0 15 [],
         SyntaxNode.mk "PandocAttribute" 16 31 []])
        "\x7b.a #one key=1\x7d \x7b.b #two key=2\x7d" =
      .ok ([.text (genericTextNode 15 16 " ")],
        some [("class", "a b"), ("id", "one"), ("key", "2")]) ∧
    recGet [("class", "a b"), ("id", "one"), ("key", "2")] "class" = some "a b" ∧
    recGet [("class", "a b"), ("id", "one"), ("key", "2")] "id" = some "one" ∧
    recGet [("class", "a b"), ("id", "one"), ("key", "2")] "key" = some "2" := by
  refine ⟨?_, rfl, rfl, rfl⟩
  rw [parseChildren_go _ _ (by simp)]
  simp only [SyntaxNode.name_mk, SyntaxNode.children_mk, SyntaxNode.nFrom_mk, SyntaxNode.nTo_mk]
  simp only [parseChildrenGo_cons, parseChildrenGo_nil]
  rfl

end Zettlr

namespace Zettlr

/-- C7 — ATX headings have `level` equal to the length of their `HeaderMark`
child's range (so `# a` … `###### a` give levels 1–6), and Setext headings
have level 2 exactly when the underline mark's text contains a dash and
level 1 otherwise (so `---` gives 2 and `===` gives 1). -/
theorem heading_level_rules :
    (∀ (n : SyntaxNode) (md : String) (mark : SyntaxNode),
      (n.name = "ATXHeading1" ∨ n.name = "ATXHeading2" ∨ n.name = "ATXHeading3" ∨
       n.name = "ATXHeading4" ∨ n.name = "ATXHeading5" ∨ n.name = "ATXHeading6") →
      n.getChild "HeaderMark" = some mark →
      (parseNode n md).map ASTNode.levelOf = .ok (some (mark.nTo - mark.nFrom)))
  ∧ (∀ (n : SyntaxNode) (md : String) (mark : SyntaxNode),
      (n.name = "SetextHeading1" ∨ n.name = "SetextHeading2") →
      n.getChild "HeaderMark" = some mark →
      (parseNode n md).map ASTNode.levelOf =
        .ok (some (if jsIncludesChar (jsSubstring md mark.nFrom mark.nTo) '-' then 2 else 1))) := by
  constructor
  · intro n md mark h hm
    rw [parseNode_atx n md h, hm]
    rfl
  · intro n md mark h hm
    rw [parseNode_setext n md h, hm]
    rfl

/-- C7 witness: `# a` gives level 1, `###### a` gives level 6, a `---`
underline gives level 2 and a `===` underline gives level 1. -/
theorem heading_level_rules_witness :
    (parseNode (SyntaxNode.mk "ATXHeading1" 0 3 [SyntaxNode.mk "HeaderMark" 0 1 []])
      "# a").map ASTNode.levelOf = .ok (some 1) ∧
    (parseNode (SyntaxNode.mk "ATXHeading6" 0 8 [SyntaxNode.mk "HeaderMark" 0 6 []])
      "###### a").map ASTNode.levelOf = .ok (some 6) ∧
    (parseNode (SyntaxNode.mk "SetextHeading2" 0 7 [SyntaxNode.mk "HeaderMark" 4 7 []])
      "abc\n---").map ASTNode.levelOf = .ok (some 2) ∧
    (parseNode (SyntaxNode.mk "SetextHeading1" 0 7 [SyntaxNode.mk "HeaderMark" 4 7 []])
      "abc\n===").map ASTNode.levelOf = .ok (some 1) :=
  ⟨heading_level_rules.1 (SyntaxNode.mk "ATXHeading1" 0 3 [SyntaxNode.mk "HeaderMark" 0 1 []])
      "# a" (SyntaxNode.mk "HeaderMark" 0 1 []) (Or.inl rfl) rfl,
   heading_level_rules.1 (SyntaxNode.mk "ATXHeading6" 0 8 [SyntaxNode.mk "HeaderMark" 0 6 []])
      "###### a" (SyntaxNode.mk "HeaderMark" 0 6 [])
      (Or.inr (Or.inr (Or.inr (Or.inr (Or.inr rfl))))) rfl,
   heading_level_rules.2 (SyntaxNode.mk "SetextHeading2" 0 7 [SyntaxNode.mk "HeaderMark" 4 7 []])
      "abc\n---" (SyntaxNode.mk "HeaderMark" 4 7 []) (Or.inr rfl) rfl,
   heading_level_rules.2 (SyntaxNode.mk "SetextHeading1" 0 7 [SyntaxNode.mk "HeaderMark" 4 7 []])
      "abc\n===" (SyntaxNode.mk "HeaderMark" 4 7 []) (Or.inl rfl) rfl⟩

/-- C8 — a fenced/indented code node whose opening `CodeMark` text is
exactly `$$` gets `info = "$$"`; otherwise `info` is the verbatim `CodeInfo`
child text, or the empty string when no `CodeInfo` child exists. -/
theorem fenced_code_info_rules :
    (∀ (n : SyntaxNode) (md : String) (m : SyntaxNode),
      (n.name = "FencedCode" ∨ n.name = "CodeBlock") →
      n.getChild "CodeMark" = some m →
      jsSubstring md m.nFrom m.nTo = "$$" →
      (parseNode n md).map ASTNode.infoOf = .ok (some "$$"))
  ∧ (∀ (n : SyntaxNode) (md : String),
      (n.name = "FencedCode" ∨ n.name = "CodeBlock") →
      (match n.getChild "CodeMark" with
       | some m => jsSubstring md m.nFrom m.nTo ≠ "$$"
       | none => True) →
      (parseNode n md).map ASTNode.infoOf =
        .ok (some (match n.getChild "CodeInfo" with
          | some i => jsSubstring md i.nFrom i.nTo
          | none => ""))) := by
  constructor
  · intro n md m h hm h2
    have hb : (jsSubstring md m.nFrom m.nTo == "$$") = true := by simp [h2]
    rw [parseNode_fenced n md h, hm]
    dsimp only
    rw [hb]
    simp [h2, ASTNode.infoOf]
    rfl
  · intro n md h h2
    rw [parseNode_fenced n md h]
    cases hm : n.getChild "CodeMark" with
    | none =>
      cases hi : n.getChild "CodeInfo" <;> rfl
    | some m =>
      rw [hm] at h2
      dsimp only at h2 ⊢
      have hb : (jsSubstring md m.nFrom m.nTo == "$$") = false :=
        beq_eq_false_iff_ne.mpr h2
      rw [hb]
      simp only [Bool.false_eq_true, if_false]
      cases hi : n.getChild "CodeInfo" <;> rfl

/-- C8 witness: a `$$` fence yields `info = "$$"`, an ordinary
```` ```python ```` fence yields `info = "python"`. -/
theorem fenced_code_info_rules_witness :
    (parseNode (SyntaxNode.mk "FencedCode" 0 9
      [SyntaxNode.mk "CodeMark" 0 2 [], SyntaxNode.mk "CodeText" 3 6 [],
       SyntaxNode.mk "CodeMark" 7 9 []]) "$$\nx+y\n$$").map ASTNode.infoOf =
      .ok (some "$$") ∧
    (parseNode (SyntaxNode.mk "FencedCode" 0 15
      [SyntaxNode.mk "CodeMark" 0 3 [], SyntaxNode.mk "CodeInfo" 3 9 [],
       SyntaxNode.mk "CodeText" 10 11 [], SyntaxNode.mk "CodeMark" 12 15 []])
      "```python\nx\n```").map ASTNode.infoOf = .ok (some "python") := by
  constructor
  · exact fenced_code_info_rules.1 (SyntaxNode.mk "FencedCode" 0 9
      [SyntaxNode.mk "CodeMark" 0 2 [], SyntaxNode.mk "CodeText" 3 6 [],
       SyntaxNode.mk "CodeMark" 7 9 []]) "$$\nx+y\n$$"
      (SyntaxNode.mk "CodeMark" 0 2 []) (Or.inl rfl) rfl rfl
  · have h := fenced_code_info_rules.2 (SyntaxNode.mk "FencedCode" 0 15
      [SyntaxNode.mk "CodeMark" 0 3 [], SyntaxNode.mk "CodeInfo" 3 9 [],
       SyntaxNode.mk "CodeText" 10 11 [], SyntaxNode.mk "CodeMark" 12 15 []])
      "```python\nx\n```" (Or.inl rfl)
      (by show jsSubstring "```python\nx\n```" 0 3 ≠ "$$"; decide)
    exact h

end Zettlr

namespace Zettlr

theorem parseListItems_checked (o : Bool) (md : String) :
    ∀ (cs : List SyntaxNode) (l : List ASTNode), parseListItems o cs md = .ok l →
      List.Forall₂ (fun (it : SyntaxNode) (b : ASTNode) =>
        b.checkedOf =
          (match (it.getChild "Task").bind (fun t => t.getChild "TaskMarker") with
           | some tm => some (jsSubstring md tm.nFrom tm.nTo == "[x]")
           | none => none)) cs l := by
  intro cs
  induction cs with
  | nil =>
    intro l h
    rw [parseListItems_nil] at h
    injection h with he
    subst he
    exact List.Forall₂.nil
  | cons item rest ih =>
    intro l h
    rw [parseListItems_cons] at h
    rcases hpc : parseChildren item md with e | ⟨kids, attrs⟩ <;> rw [hpc] at h
    · exact absurd h (by simp)
    · rcases hrest : parseListItems o rest md with e | more <;> rw [hrest] at h
      · exact absurd h (by simp)
      · injection h with he
        subst he
        exact List.Forall₂.cons rfl (ih more hrest)

/-- C9 — in a converted `OrderedList`/`BulletList`, each produced `ListItem`
has `checked = some true` exactly when its `Task` sub-node's `TaskMarker`
child text is `[x]`, `some false` for any other marker text, and no `checked`
field (`none`) when there is no task marker. -/
theorem list_task_checked_rules (n : SyntaxNode) (md : String) (a : ASTNode)
    (h : n.name = "OrderedList" ∨ n.name = "BulletList")
    (hp : parseNode n md = .ok a) :
    ∃ items, a = .list n.name n.nFrom n.nTo (n.name == "OrderedList") items ∧
      List.Forall₂ (fun (it : SyntaxNode) (b : ASTNode) =>
        b.checkedOf =
          (match (it.getChild "Task").bind (fun t => t.getChild "TaskMarker") with
           | some tm => some (jsSubstring md tm.nFrom tm.nTo == "[x]")
           | none => none)) (n.getChildren "ListItem") items := by
  rw [parseNode_list n md h] at hp
  rcases hli : parseListItems (n.name == "OrderedList") (n.getChildren "ListItem") md with
    e | items <;> rw [hli] at hp
  · exact absurd hp (by simp)
  · injection hp with he
    exact ⟨items, he.symm, parseListItems_checked _ md _ items hli⟩

/-- C9 witness: a bullet list `- [x] a` whose single item carries a
`TaskMarker` with text `[x]` yields `checked = some true`. -/
theorem list_task_checked_rules_witness :
    ∃ items,
      ASTNode.list "BulletList" 0 7 false
        [ASTNode.listItem "ListItem" 0 7 none (some true)
          { symbol := none, nFrom := 0, nTo := 0 }
          [ASTNode.generic "Task" 2 7 none
            [ASTNode.generic "TaskMarker" 2 5 none
              [ASTNode.text (genericTextNode 2 5 "[x]")],
             ASTNode.text (genericTextNode 5 7 " a")]]] =
        ASTNode.list "BulletList" 0 7 false items ∧
      List.Forall₂ (fun (it : SyntaxNode) (b : ASTNode) =>
        b.checkedOf =
          (match (it.getChild "Task").bind (fun t => t.getChild "TaskMarker") with
           | some tm => some (jsSubstring "- [x] a" tm.nFrom tm.nTo == "[x]")
           | none => none))
        [SyntaxNode.mk "ListItem" 0 7
          [SyntaxNode.mk "Task" 2 7 [SyntaxNode.mk "TaskMarker" 2 5 []]]] items :=
  list_task_checked_rules
    (SyntaxNode.mk "BulletList" 0 7
      [SyntaxNode.mk "ListItem" 0 7
        [SyntaxNode.mk "Task" 2 7 [SyntaxNode.mk "TaskMarker" 2 5 []]]])
    "- [x] a" _ (Or.inr rfl) (by
      rw [parseNode_list (SyntaxNode.mk "BulletList" 0 7
        [SyntaxNode.mk "ListItem" 0 7
          [SyntaxNode.mk "Task" 2 7 [SyntaxNode.mk "TaskMarker" 2 5 []]]]) "- [x] a"
        (Or.inr rfl)]
      simp only [SyntaxNode.name_mk, SyntaxNode.children_mk, SyntaxNode.nFrom_mk,
        SyntaxNode.nTo_mk]
      rw [show (SyntaxNode.mk "BulletList" 0 7
          [SyntaxNode.mk "ListItem" 0 7
            [SyntaxNode.mk "Task" 2 7 [SyntaxNode.mk "TaskMarker" 2 5 []]]]).getChildren
          "ListItem" =
        [SyntaxNode.mk "ListItem" 0 7
          [SyntaxNode.mk "Task" 2 7 [SyntaxNode.mk "TaskMarker" 2 5 []]]] from rfl]
      rw [parseListItems_cons, parseListItems_nil]
      rw [parseChildren_go _ _ (by simp)]
      simp only [SyntaxNode.name_mk, SyntaxNode.children_mk, SyntaxNode.nFrom_mk,
        SyntaxNode.nTo_mk]
      rw [parseChildrenGo_cons,
        parseNode_default (SyntaxNode.mk "Task" 2 7 [SyntaxNode.mk "TaskMarker" 2 5 []])
          "- [x] a" (by decide)]
      rw [parseChildren_go (SyntaxNode.mk "Task" 2 7 [SyntaxNode.mk "TaskMarker" 2 5 []]) _
        (by simp)]
      simp only [SyntaxNode.name_mk, SyntaxNode.children_mk, SyntaxNode.nFrom_mk,
        SyntaxNode.nTo_mk]
      rw [parseChildrenGo_cons,
        parseNode_default (SyntaxNode.mk "TaskMarker" 2 5 []) "- [x] a" (by decide),
        parseChildren_empty (SyntaxNode.mk "TaskMarker" 2 5 []) "- [x] a" rfl]
      simp only [parseChildrenGo_nil]
      rfl)

/-- C10 (amended) — for a Setext heading with a `HeaderMark` child, the
value `TextNode` spans `[mark.nTo, node.nTo)` while its string is the
trimmed source before the mark, `jsTrim (substring node.nFrom mark.nFrom)`;
consequently the value string does not in general equal the source substring
of the value node's own range. -/
theorem setext_value_shape :
    (∀ (n : SyntaxNode) (md : String) (mark : SyntaxNode),
      (n.name = "SetextHeading1" ∨ n.name = "SetextHeading2") →
      n.getChild "HeaderMark" = some mark →
      parseNode n md = .ok (.heading n.name n.nFrom n.nTo
        (genericTextNode mark.nTo n.nTo (jsTrim (jsSubstring md n.nFrom mark.nFrom)))
        (if jsIncludesChar (jsSubstring md mark.nFrom mark.nTo) '-' then 2 else 1)))
  ∧ (parseNode (SyntaxNode.mk "SetextHeading2" 0 6 [SyntaxNode.mk "HeaderMark" 3 6 []])
      "ab\n---" = .ok (.heading "SetextHeading2" 0 6 (genericTextNode 6 6 "ab") 2) ∧
     jsSubstring "ab\n---" 6 6 ≠ "ab") := by
  constructor
  · intro n md mark h hm
    rw [parseNode_setext n md h, hm]
  · constructor
    · rw [parseNode_setext (SyntaxNode.mk "SetextHeading2" 0 6
        [SyntaxNode.mk "HeaderMark" 3 6 []]) "ab\n---" (Or.inr rfl)]
      rfl
    · decide

/-- C10 witness: the Setext shape theorem applied to `ab` underlined with
`===`, where the value `TextNode` spans the empty range `[6, 6)` but holds
the trimmed pre-mark text `"ab"`. -/
theorem setext_value_shape_witness :
    parseNode (SyntaxNode.mk "SetextHeading1" 0 6 [SyntaxNode.mk "HeaderMark" 3 6 []])
      "ab\n===" = .ok (.heading "SetextHeading1" 0 6 (genericTextNode 6 6 "ab") 1) :=
  setext_value_shape.1 (SyntaxNode.mk "SetextHeading1" 0 6 [SyntaxNode.mk "HeaderMark" 3 6 []])
    "ab\n===" (SyntaxNode.mk "HeaderMark" 3 6 []) (Or.inl rfl) rfl

/-- C10 counterexample — an ATX heading `# a ` (not a Setext heading) also
produces a value `TextNode` whose string differs from the source substring
of its own range, because the ATX case trims: so the Setext case is not
unlike every `TextNode` produced elsewhere in the converter. -/
theorem atx_value_not_verbatim :
    parseNode (SyntaxNode.mk "ATXHeading1" 0 4 [SyntaxNode.mk "HeaderMark" 0 1 []])
      "# a " = .ok (.heading "ATXHeading1" 0 4 (genericTextNode 1 4 "a") 1) ∧
    jsSubstring "# a " 1 4 ≠ "a" ∧
    (SyntaxNode.mk "ATXHeading1" 0 4 [SyntaxNode.mk "HeaderMark" 0 1 []]).name ≠ "SetextHeading1" ∧
    (SyntaxNode.mk "ATXHeading1" 0 4 [SyntaxNode.mk "HeaderMark" 0 1 []]).name ≠ "SetextHeading2" := by
  refine ⟨?_, by decide, by decide, by decide⟩
  rw [parseNode_atx (SyntaxNode.mk "ATXHeading1" 0 4 [SyntaxNode.mk "HeaderMark" 0 1 []])
    "# a " (Or.inl rfl)]
  rfl

end Zettlr
